import Mathlib

/-!
Fleet registry and maintenance scheduler (`main.cpp`)

A shallow embedding of the parts of `main.cpp` that carry state or a contract:
`generateID`, `Vehicle` and its three variants, `MaintenanceManager` and
`FleetManager`.

Conventions of the embedding:

* a `std::map<string, T>` is the sequence of its entries in key order
  (`StdMap T`); `find` and `operator[]=` are `StdMap.find` and `StdMap.assign`;
* `int` is `Int` (no overflow), the `static int counter` of `generateID`, which
  starts at 1 and only grows, is a `Nat`; where the range of `int` matters
  (`updateMileage32`, `run32`) the result of the subtraction wraps modulo `2^32`;
* in `Vehicle` and its variants, which carry the identity of a vehicle, a
  `double` is an exact rational (`ℚ`); the arithmetic of `operator+=`,
  `operator<` and `analyzeUsageEfficiency` is that of `Binary64`: a `double` is
  a `DoubleValue` (a finite value, an infinity or NaN) and a result is rounded
  to the nearest double, ties to even; `distanceTo`, which calls `sin`, `cos`,
  `sqrt` and `atan2`, is taken over the reals;
* a member function that changes its object returns the new object;
* console output (`cout`) is not part of the state.
-/

namespace Fleet

/-! ## `std::map<string, T>` -/

/-- A `std::map<string, T>`: its entries, in iteration order. -/
abbrev StdMap (T : Type) := List (String × T)

namespace StdMap

/-- Lookup `m.find(k)`: the mapped value, `none` for `m.end()`. -/
def find {T : Type} : StdMap T → String → Option T
  | [], _ => none
  | (k', v) :: rest, k => if k' = k then some v else find rest k

/-- Assignment `m[k] = v`: overwrites the entry of `k`, or inserts one at its place in key
order (`std::string` compares lexicographically, character by character). -/
def assign {T : Type} : StdMap T → String → T → StdMap T
  | [], k, v => [(k, v)]
  | (k', v') :: rest, k, v =>
    if k' = k then (k, v) :: rest
    else if k.data < k'.data then (k, v) :: (k', v') :: rest
    else (k', v') :: assign rest k v

/-- The keys of the map, in iteration order. -/
def keys {T : Type} (m : StdMap T) : List String := m.map Prod.fst

end StdMap

/-! ## `MaintenanceManager` -/

/-- The two private maps of `MaintenanceManager`. -/
structure MaintenanceManager where
  maintenanceSchedule : StdMap Int
  maintenanceRequired : StdMap Bool
  deriving DecidableEq, Repr

namespace MaintenanceManager

/-- A default-constructed manager: both maps empty. -/
def empty : MaintenanceManager := ⟨[], []⟩

/-- Method `void addVehicle(const string& id, int mileageToNextService)`. -/
def addVehicle (s : MaintenanceManager) (id : String) (mileageToNextService : Int) :
    MaintenanceManager :=
  { maintenanceSchedule := s.maintenanceSchedule.assign id mileageToNextService
    maintenanceRequired := s.maintenanceRequired.assign id false }

/-- Method `void updateMileage(const string& id, int mileage)`: the test is on
`maintenanceSchedule`, the subtraction is `maintenanceSchedule[id] -= mileage`. -/
def updateMileage (s : MaintenanceManager) (id : String) (mileage : Int) :
    MaintenanceManager :=
  match s.maintenanceSchedule.find id with
  | some old =>
    let schedule := s.maintenanceSchedule.assign id (old - mileage)
    if old - mileage ≤ 0 then
      { maintenanceSchedule := schedule
        maintenanceRequired := s.maintenanceRequired.assign id true }
    else
      { maintenanceSchedule := schedule
        maintenanceRequired := s.maintenanceRequired }
  | none => s

/-- Method `bool needsMaintenance(const string& id) const`. -/
def needsMaintenance (s : MaintenanceManager) (id : String) : Bool :=
  match s.maintenanceRequired.find id with
  | some required => required
  | none => false

/-- Method `void performMaintenance(const string& id, int mileageToNextService)`: the test
is on `maintenanceRequired`. -/
def performMaintenance (s : MaintenanceManager) (id : String) (mileageToNextService : Int) :
    MaintenanceManager :=
  match s.maintenanceRequired.find id with
  | some _ =>
    { maintenanceRequired := s.maintenanceRequired.assign id false
      maintenanceSchedule := s.maintenanceSchedule.assign id mileageToNextService }
  | none => s

end MaintenanceManager

/-! ## `generateID` -/

/-- Library function `std::to_string(int)` on a non-negative value: the decimal digits. -/
def to_string (n : Nat) : String := Nat.repr n

/-- Function `string generateID()`; the static `counter` is passed in and handed back
incremented. -/
def generateID (counter : Nat) : String × Nat :=
  ("V" ++ to_string counter, counter + 1)

/-- The value of `counter` when the program starts. -/
def initialCounter : Nat := 1

/-- The identifiers returned by `n` successive calls of `generateID`. -/
def generateIDs : Nat → Nat → List String
  | 0, _ => []
  | n + 1, counter => (generateID counter).1 :: generateIDs n (generateID counter).2

/-- The number a list of decimal digit characters denotes, most significant digit first
(used to read back what `to_string` wrote). -/
def digitsValue (l : List Char) : Nat :=
  l.foldl (fun acc c => 10 * acc + (c.toNat - 48)) 0

/-! ## `Location<T>` -/

/-- Class template `Location<T>`. -/
structure Location (T : Type) where
  latitude : T
  longitude : T
  deriving DecidableEq, Repr

namespace Location

/-- Default constructor `Location()`. -/
def default {T : Type} [Zero T] : Location T := ⟨0, 0⟩

/-- Method `toString()`; `fmt` is `std::to_string` on `T`. -/
def toString {T : Type} (fmt : T → String) (l : Location T) : String :=
  fmt l.latitude ++ "," ++ fmt l.longitude

end Location

/-! ## `Vehicle` and its variants -/

/-- Value of a `double` expression that may be non-finite: a finite value is an exact
rational, the results of a division by zero are kept apart. -/
inductive DoubleValue where
  | finite (q : ℚ)
  | inf (negative : Bool)
  | nan
  deriving DecidableEq

/-- Division `x / y` of two finite doubles under IEEE 754, the zero divisor being `+0.0`:
`0 / 0` is NaN, `x / 0` is the infinity with the sign of `x`. For a divisor other than zero
the quotient is left exact here; `Binary64.div` rounds it. -/
def DoubleValue.div (x y : ℚ) : DoubleValue :=
  if y = 0 then
    if x = 0 then .nan else .inf (decide (x < 0))
  else .finite (x / y)

/-- The data members of the base class `Vehicle`, the two `double` members as exact
rationals; `Binary64.Vehicle` holds them as doubles. -/
structure Vehicle where
  vehicle_id : String
  make_and_model : String
  mileage : ℚ
  fuel_efficiency : ℚ
  available : Bool
  deriving DecidableEq

namespace Vehicle

/-- Constructor `Vehicle()`. -/
def default (counter : Nat) : Vehicle × Nat :=
  ({ vehicle_id := (generateID counter).1
     make_and_model := "Generic"
     mileage := 0
     fuel_efficiency := 0
     available := true }, (generateID counter).2)

/-- Constructor `Vehicle(make, model, mileage, efficiency)`. -/
def create (make model : String) (mileage efficiency : ℚ) (counter : Nat) : Vehicle × Nat :=
  ({ vehicle_id := (generateID counter).1
     make_and_model := make ++ " " ++ model
     mileage := mileage
     fuel_efficiency := efficiency
     available := true }, (generateID counter).2)

/-- Method `isAvailable()`. -/
def isAvailable (v : Vehicle) : Bool := v.available

/-- Method `getFuelEfficiency()`. -/
def getFuelEfficiency (v : Vehicle) : ℚ := v.fuel_efficiency

/-- Method `analyzeUsageEfficiency()`: `mileage / fuel_efficiency`. -/
def analyzeUsageEfficiency (v : Vehicle) : DoubleValue :=
  DoubleValue.div v.mileage v.fuel_efficiency

/-- Method `getID()`. -/
def getID (v : Vehicle) : String := v.vehicle_id

/-- Comparison `operator==`. -/
def operator_eq (a other : Vehicle) : Bool := decide (a.vehicle_id = other.vehicle_id)

/-- Comparison `operator!=`. -/
def operator_ne (a other : Vehicle) : Bool := !(operator_eq a other)

/-- Compound assignment `operator+=`, the sum left exact; `Binary64.Vehicle.operator_plus_eq`
rounds it. -/
def operator_plus_eq (v : Vehicle) (additionalMileage : ℚ) : Vehicle :=
  if additionalMileage > 0 then { v with mileage := v.mileage + additionalMileage } else v

/-- The implicitly defined copy assignment `Vehicle::operator=`: every data member of the
target is overwritten from the source. -/
def operator_assign (_target source : Vehicle) : Vehicle :=
  { vehicle_id := source.vehicle_id
    make_and_model := source.make_and_model
    mileage := source.mileage
    fuel_efficiency := source.fuel_efficiency
    available := source.available }

end Vehicle

/-- Class `Car`. -/
structure Car extends Vehicle where
  passenger_capacity : Int
  deriving DecidableEq

/-- Class `Truck`. -/
structure Truck extends Vehicle where
  load_capacity : ℚ
  deriving DecidableEq

/-- Class `Motorcycle`. -/
structure Motorcycle extends Vehicle where
  type : String
  cylinder_count : Int
  deriving DecidableEq

/-- Constructor `Car()`. -/
def Car.default (counter : Nat) : Car × Nat :=
  ({ toVehicle := (Vehicle.default counter).1, passenger_capacity := 0 },
    (Vehicle.default counter).2)

/-- Constructor `Car(make, model, mileage, efficiency, capacity)`. -/
def Car.create (make model : String) (mileage efficiency : ℚ) (capacity : Int)
    (counter : Nat) : Car × Nat :=
  ({ toVehicle := (Vehicle.create make model mileage efficiency counter).1
     passenger_capacity := capacity },
    (Vehicle.create make model mileage efficiency counter).2)

/-- The implicitly defined copy assignment of `Car`, the one `*car2 = *car` calls: the base
part is assigned by `Vehicle::operator=`, then `passenger_capacity` is copied. -/
def Car.operator_assign (target source : Car) : Car :=
  { toVehicle := Vehicle.operator_assign target.toVehicle source.toVehicle
    passenger_capacity := source.passenger_capacity }

/-- Constructor `Truck()`. -/
def Truck.default (counter : Nat) : Truck × Nat :=
  ({ toVehicle := (Vehicle.default counter).1, load_capacity := 0 },
    (Vehicle.default counter).2)

/-- Constructor `Truck(make, model, mileage, efficiency, loadCapacity)`. -/
def Truck.create (make model : String) (mileage efficiency loadCapacity : ℚ)
    (counter : Nat) : Truck × Nat :=
  ({ toVehicle := (Vehicle.create make model mileage efficiency counter).1
     load_capacity := loadCapacity },
    (Vehicle.create make model mileage efficiency counter).2)

/-- Constructor `Motorcycle()`. -/
def Motorcycle.default (counter : Nat) : Motorcycle × Nat :=
  ({ toVehicle := (Vehicle.default counter).1, type := "Generic", cylinder_count := 0 },
    (Vehicle.default counter).2)

/-- Constructor `Motorcycle(make, model, mileage, efficiency, type, cylinder_count)`. -/
def Motorcycle.create (make model : String) (mileage efficiency : ℚ) (type : String)
    (cylinder_count : Int) (counter : Nat) : Motorcycle × Nat :=
  ({ toVehicle := (Vehicle.create make model mileage efficiency counter).1
     type := type
     cylinder_count := cylinder_count },
    (Vehicle.create make model mileage efficiency counter).2)

/-- The object behind a `shared_ptr<Vehicle>`: `Vehicle` is abstract, so it is one of the
three variants. -/
inductive VehicleObject where
  | car (c : Car)
  | truck (t : Truck)
  | motorcycle (m : Motorcycle)
  deriving DecidableEq

/-- The `Vehicle` base part of an object, on which the non-virtual members act. -/
def VehicleObject.toVehicle : VehicleObject → Vehicle
  | .car c => c.toVehicle
  | .truck t => t.toVehicle
  | .motorcycle m => m.toVehicle

/-- Call `vehicle->getID()`. -/
def VehicleObject.getID (v : VehicleObject) : String := v.toVehicle.getID

/-- A constructor call of the program, with its arguments. -/
inductive ConstructorCall where
  | carDefault
  | car (make model : String) (mileage efficiency : ℚ) (capacity : Int)
  | truckDefault
  | truck (make model : String) (mileage efficiency loadCapacity : ℚ)
  | motorcycleDefault
  | motorcycle (make model : String) (mileage efficiency : ℚ) (type : String)
      (cylinder_count : Int)

/-- Runs one constructor call. -/
def ConstructorCall.run : ConstructorCall → Nat → VehicleObject × Nat
  | .carDefault, counter => (.car (Car.default counter).1, (Car.default counter).2)
  | .car make model mileage efficiency capacity, counter =>
    (.car (Car.create make model mileage efficiency capacity counter).1,
      (Car.create make model mileage efficiency capacity counter).2)
  | .truckDefault, counter => (.truck (Truck.default counter).1, (Truck.default counter).2)
  | .truck make model mileage efficiency loadCapacity, counter =>
    (.truck (Truck.create make model mileage efficiency loadCapacity counter).1,
      (Truck.create make model mileage efficiency loadCapacity counter).2)
  | .motorcycleDefault, counter =>
    (.motorcycle (Motorcycle.default counter).1, (Motorcycle.default counter).2)
  | .motorcycle make model mileage efficiency type cylinder_count, counter =>
    (.motorcycle (Motorcycle.create make model mileage efficiency type cylinder_count counter).1,
      (Motorcycle.create make model mileage efficiency type cylinder_count counter).2)

/-- Runs a sequence of constructor calls, in order, from a counter value. -/
def constructAll : List ConstructorCall → Nat → List VehicleObject
  | [], _ => []
  | call :: rest, counter => (call.run counter).1 :: constructAll rest (call.run counter).2

/-! ## `FleetManager` -/

namespace StdMap

/-- Access `m[k]` as an rvalue: the mapped value and the map afterwards; a missing key is
inserted with the value-initialised `dflt`. -/
def subscript {T : Type} (m : StdMap T) (k : String) (dflt : T) : T × StdMap T :=
  match m.find k with
  | some v => (v, m)
  | none => (dflt, m.assign k dflt)

end StdMap

/-- The data members of `FleetManager`. -/
structure FleetManager where
  vehicles : List VehicleObject
  locations : StdMap (Location ℚ)
  maintenanceManager : MaintenanceManager
  deriving DecidableEq

/-- What the process does to the outside world. -/
inductive Effect where
  | popen (command : String)
  | writeFile (path content : String)
  deriving DecidableEq

/-- The outside world as `buildRoute` sees it. -/
structure Environment where
  /-- Formatting `std::to_string(double)`. -/
  formatDouble : ℚ → String
  /-- Running `popen(command, "r")`: `none` when no pipe is returned, else all the text read
  from it. -/
  popen : String → Option String
  /-- Whether `std::ofstream file(path)` is open after construction. -/
  canOpen : String → Bool

/-- Result of a call that may throw: the `what()` of the `std::runtime_error` if one was
thrown, the object afterwards and the effects performed, in order. -/
structure Outcome where
  error : Option String
  fleet : FleetManager
  effects : List Effect
  deriving DecidableEq

namespace FleetManager

/-- A default-constructed `FleetManager`, the one `getInstance` creates. -/
def empty : FleetManager := ⟨[], [], MaintenanceManager.empty⟩

/-- Private method `queryRouteAPI(start, end)`: the command run, and the text read or the
message of the exception. -/
def queryRouteAPI (env : Environment) (start finish : String) : String × Except String String :=
  let command := "curl -s \"http://router.project-osrm.org/route/v1/driving/" ++ start ++ ";"
    ++ finish ++ "?overview=full\""
  match env.popen command with
  | none => (command, .error "Failed to call OSRM API.")
  | some result => (command, .ok result)

/-- Method `addVehicle(shared_ptr<Vehicle> vehicle, int mileageToNextService)`. -/
def addVehicle (fm : FleetManager) (vehicle : VehicleObject) (mileageToNextService : Int) :
    FleetManager :=
  { fm with
    vehicles := fm.vehicles ++ [vehicle]
    maintenanceManager := fm.maintenanceManager.addVehicle vehicle.getID mileageToNextService }

/-- The message of the exception thrown for an unknown location id. -/
def invalidLocationMessage : String := "Invalid start or end location ID."

/-- Method `buildRoute(startID, endID, outputFilePath)`. -/
def buildRoute (env : Environment) (fm : FleetManager) (startID endID outputFilePath : String) :
    Outcome :=
  if fm.locations.find startID = none ∨ fm.locations.find endID = none then
    { error := some invalidLocationMessage, fleet := fm, effects := [] }
  else
    let startLocation := fm.locations.subscript startID Location.default
    let endLocation := startLocation.2.subscript endID Location.default
    let fm' := { fm with locations := endLocation.2 }
    let query := queryRouteAPI env (startLocation.1.toString env.formatDouble)
      (endLocation.1.toString env.formatDouble)
    match query.2 with
    | .error message => { error := some message, fleet := fm', effects := [.popen query.1] }
    | .ok routeResponse =>
      if env.canOpen outputFilePath then
        { error := none, fleet := fm'
          effects := [.popen query.1, .writeFile outputFilePath routeResponse] }
      else
        { error := some "Failed to open output file.", fleet := fm'
          effects := [.popen query.1] }

/-- Method `getLocations()`: the reference handed out is to the member itself. -/
def getLocations (fm : FleetManager) : StdMap (Location ℚ) := fm.locations

/-- Method `updateMileage(id, mileage)`. -/
def updateMileage (fm : FleetManager) (id : String) (mileage : Int) : FleetManager :=
  { fm with maintenanceManager := fm.maintenanceManager.updateMileage id mileage }

/-- Method `needsMaintenance(id)`. -/
def needsMaintenance (fm : FleetManager) (id : String) : Bool :=
  fm.maintenanceManager.needsMaintenance id

/-- Method `performMaintenance(id, mileageToNextService)`. -/
def performMaintenance (fm : FleetManager) (id : String) (mileageToNextService : Int) :
    FleetManager :=
  { fm with maintenanceManager := fm.maintenanceManager.performMaintenance id mileageToNextService }

end FleetManager

/-! ## Sequences of calls -/

/-- A call of one of the three state-changing methods of `MaintenanceManager`. -/
inductive MaintenanceCall where
  | addVehicle (id : String) (mileageToNextService : Int)
  | updateMileage (id : String) (mileage : Int)
  | performMaintenance (id : String) (mileageToNextService : Int)
  deriving DecidableEq

/-- Runs one call on a scheduler. -/
def MaintenanceManager.step (s : MaintenanceManager) : MaintenanceCall → MaintenanceManager
  | .addVehicle id t => s.addVehicle id t
  | .updateMileage id m => s.updateMileage id m
  | .performMaintenance id t => s.performMaintenance id t

/-- Runs a sequence of calls on a scheduler, in order. -/
def MaintenanceManager.run (s : MaintenanceManager) (calls : List MaintenanceCall) :
    MaintenanceManager :=
  calls.foldl MaintenanceManager.step s

/-- A call of one of the three maintenance methods of `FleetManager`. -/
inductive FleetCall where
  | addVehicle (vehicle : VehicleObject) (mileageToNextService : Int)
  | updateMileage (id : String) (mileage : Int)
  | performMaintenance (id : String) (mileageToNextService : Int)
  deriving DecidableEq

/-- Runs one call on a registry. -/
def FleetManager.step (fm : FleetManager) : FleetCall → FleetManager
  | .addVehicle v t => fm.addVehicle v t
  | .updateMileage id m => fm.updateMileage id m
  | .performMaintenance id t => fm.performMaintenance id t

/-- Runs a sequence of calls on a registry, in order. -/
def FleetManager.run (fm : FleetManager) (calls : List FleetCall) : FleetManager :=
  calls.foldl FleetManager.step fm

/-- The scheduler call a registry call corresponds to: the vehicle is replaced by its id. -/
def FleetCall.toMaintenanceCall : FleetCall → MaintenanceCall
  | .addVehicle v t => .addVehicle v.getID t
  | .updateMileage id m => .updateMileage id m
  | .performMaintenance id t => .performMaintenance id t

/-- The vehicles a sequence of registry calls adds, in order. -/
def FleetCall.added : List FleetCall → List VehicleObject
  | [] => []
  | .addVehicle v _ :: rest => v :: added rest
  | .updateMileage _ _ :: rest => added rest
  | .performMaintenance _ _ :: rest => added rest

/-! ## The objects of `runTests` and `main` -/

/-- The `car` of `runTests`, the first vehicle constructed. -/
def testCar : Car := (Car.create "Toyota" "Camry" 12000 12 5 initialCounter).1

/-- The `truck` of `runTests`, the second vehicle constructed. -/
def testTruck : Truck := (Truck.create "Volvo" "FH16" 80000 5 20 (initialCounter + 1)).1

/-- The `bike` of `runTests`, the third vehicle constructed. -/
def testBike : Motorcycle :=
  (Motorcycle.create "Yamaha" "YZF-R6" 15000 18 "Sport" 4 (initialCounter + 2)).1

/-- The registry of `runTests` after its three `addVehicle` calls. -/
def testFleet : FleetManager :=
  ((FleetManager.empty.addVehicle (.car testCar) 500).addVehicle (.truck testTruck) 1000).addVehicle
    (.motorcycle testBike) 300

/-- The locations `main` stores under `"A"` and `"B"`, in an otherwise empty registry. -/
def mainFleet : FleetManager :=
  { FleetManager.empty with
    locations := (StdMap.assign [] "A" ⟨55.7558, 37.6173⟩).assign "B" ⟨59.9343, 30.3351⟩ }

/-- An outside world in which no pipe can be opened and every output file can. -/
def offlineEnvironment : Environment :=
  { formatDouble := fun _ => "0", popen := fun _ => none, canOpen := fun _ => true }

/-- The `car2` of `runTests`, the fourth vehicle constructed. -/
def testCar2 : Car := (Car.create "Honda" "Civic" 5000 15 4 (initialCounter + 3)).1

/-! ## Operations on a constructed vehicle, status report -/

/-- Call of `operator+=` on a `Car` object: the member of the base class acts on the base
part. -/
def Car.operator_plus_eq (c : Car) (additionalMileage : ℚ) : Car :=
  { c with toVehicle := c.toVehicle.operator_plus_eq additionalMileage }

/-- An operation the program applies to a constructed `Car`: `*c += delta`, or `*c = *source`. -/
inductive CarOperation where
  | plusEq (delta : ℚ)
  | assignFrom (source : Car)

/-- Applies one operation to a `Car`. -/
def Car.apply (c : Car) : CarOperation → Car
  | .plusEq delta => c.operator_plus_eq delta
  | .assignFrom source => Car.operator_assign c source

namespace StdMap

/-- The entries are in strictly ascending key order, as the iteration of a `std::map` is. -/
def Ordered {T : Type} (m : StdMap T) : Prop :=
  m.Pairwise (fun a b => a.1.data < b.1.data)

end StdMap

namespace MaintenanceManager

/-- The line `showStatus` prints for one entry of `maintenanceRequired`. -/
def statusLine (id : String) (required : Bool) : String :=
  "Vehicle " ++ id ++ ": " ++ (if required then "Needs Maintenance" else "OK")

/-- Method `void showStatus() const`: the lines written to `cout`. -/
def showStatus (s : MaintenanceManager) : List String :=
  "--- Maintenance Status ---" ::
    (s.maintenanceRequired.map (fun entry => statusLine entry.1 entry.2) ++ [""])

/-- The ids `showStatus` lists, in the order of its loop over `maintenanceRequired`. -/
def statusIds (s : MaintenanceManager) : List String := s.maintenanceRequired.keys

end MaintenanceManager

/-- The arguments of a scheduler call are in the intended range: a positive threshold for
`addVehicle` and `performMaintenance`, a non-negative mileage for `updateMileage`. -/
def MaintenanceCall.sane : MaintenanceCall → Bool
  | .addVehicle _ t => decide (0 < t)
  | .updateMileage _ m => decide (0 ≤ m)
  | .performMaintenance _ t => decide (0 < t)

/-! ## Arithmetic on `double`: IEEE 754 binary64 -/

namespace Binary64

/-- The exponent of the spacing of the doubles around `x`: 52 below the binary exponent of
`x`, and `-1074` in the subnormal range. -/
def quantumExp (x : ℚ) : Int := max (Int.log 2 |x| - 52) (-1074)

/-- The integer nearest to `t`, the even one of the two when `t` is halfway between them. -/
def roundEven (t : ℚ) : Int :=
  if t - ⌊t⌋ < 1 / 2 then ⌊t⌋
  else if 1 / 2 < t - ⌊t⌋ then ⌊t⌋ + 1
  else if ⌊t⌋ % 2 = 0 then ⌊t⌋ else ⌊t⌋ + 1

/-- The multiple of the spacing around `x` nearest to `x`, ties to even, the exponent not
yet bounded above. -/
def roundQ (x : ℚ) : ℚ := roundEven (x / 2 ^ quantumExp x) * 2 ^ quantumExp x

/-- The double that the exact result `x` of an operation is rounded to: round to nearest,
ties to even, an infinity when the rounded value leaves the range. The sign of a zero is not
represented. -/
def toDouble (x : ℚ) : DoubleValue :=
  if 2 ^ 1024 ≤ |roundQ x| then .inf (decide (x < 0)) else .finite (roundQ x)

/-- The values a `double` can hold: a finite one is its own rounding. -/
def isDouble : DoubleValue → Prop
  | .finite q => toDouble q = .finite q
  | .inf _ => True
  | .nan => True

/-- Sum `x + y` of two doubles. -/
def add : DoubleValue → DoubleValue → DoubleValue
  | .nan, _ => .nan
  | _, .nan => .nan
  | .inf a, .inf b => if a = b then .inf a else .nan
  | .inf a, .finite _ => .inf a
  | .finite _, .inf b => .inf b
  | .finite x, .finite y => toDouble (x + y)

/-- Comparison `x < y` of two doubles: false when either is NaN. -/
def lt : DoubleValue → DoubleValue → Bool
  | .finite x, .finite y => decide (x < y)
  | .finite _, .inf negative => !negative
  | .inf negative, .finite _ => negative
  | .inf a, .inf b => a && !b
  | .nan, _ => false
  | _, .nan => false

/-- Comparison `x <= y` of two doubles: false when either is NaN. -/
def le : DoubleValue → DoubleValue → Bool
  | .finite x, .finite y => decide (x ≤ y)
  | .finite _, .inf negative => !negative
  | .inf negative, .finite _ => negative
  | .inf a, .inf b => a || !b
  | .nan, _ => false
  | _, .nan => false

/-- Quotient `x / y` of two doubles, a zero divisor being `+0.0`. -/
def div : DoubleValue → DoubleValue → DoubleValue
  | .nan, _ => .nan
  | _, .nan => .nan
  | .inf _, .inf _ => .nan
  | .inf a, .finite y => .inf (xor a (decide (y < 0)))
  | .finite _, .inf _ => .finite 0
  | .finite x, .finite y =>
    if y = 0 then
      if x = 0 then .nan else .inf (decide (x < 0))
    else toDouble (x / y)

/-- The data members of the base class `Vehicle`, the two `double` members holding any value
of the type. -/
structure Vehicle where
  vehicle_id : String
  make_and_model : String
  mileage : DoubleValue
  fuel_efficiency : DoubleValue
  available : Bool
  deriving DecidableEq

namespace Vehicle

/-- Constructor `Vehicle()`. -/
def default (counter : Nat) : Vehicle × Nat :=
  ({ vehicle_id := (generateID counter).1
     make_and_model := "Generic"
     mileage := .finite 0
     fuel_efficiency := .finite 0
     available := true }, (generateID counter).2)

/-- Constructor `Vehicle(make, model, mileage, efficiency)`. -/
def create (make model : String) (mileage efficiency : DoubleValue) (counter : Nat) :
    Vehicle × Nat :=
  ({ vehicle_id := (generateID counter).1
     make_and_model := make ++ " " ++ model
     mileage := mileage
     fuel_efficiency := efficiency
     available := true }, (generateID counter).2)

/-- Method `analyzeUsageEfficiency()`: `mileage / fuel_efficiency`; no variant overrides
it. -/
def analyzeUsageEfficiency (v : Vehicle) : DoubleValue := div v.mileage v.fuel_efficiency

/-- Comparison `operator<`: `mileage < other.mileage`. -/
def operator_lt (a other : Vehicle) : Bool := lt a.mileage other.mileage

/-- Compound assignment `operator+=`: `if (additionalMileage > 0) mileage +=
additionalMileage`. -/
def operator_plus_eq (v : Vehicle) (additionalMileage : DoubleValue) : Vehicle :=
  if lt (.finite 0) additionalMileage = true then
    { v with mileage := add v.mileage additionalMileage }
  else v

end Vehicle

/-- The base part of the `car` of `runTests`: mileage 12000, efficiency 12.0. -/
def car : Vehicle := (Vehicle.create "Toyota" "Camry" (.finite 12000) (.finite 12) 1).1

/-- The base part of the `truck` of `runTests`: mileage 80000, efficiency 5.0. -/
def truck : Vehicle := (Vehicle.create "Volvo" "FH16" (.finite 80000) (.finite 5) 2).1

/-- The base part of the `bike` of `runTests`: mileage 15000, efficiency 18.0. -/
def bike : Vehicle := (Vehicle.create "Yamaha" "YZF-R6" (.finite 15000) (.finite 18) 3).1

end Binary64

/-! ## `int` as the machine holds it -/

/-- The least value of `int` (32 bits). -/
def INT_MIN : Int := -2147483648

/-- The greatest value of `int` (32 bits). -/
def INT_MAX : Int := 2147483647

/-- The value an `int` holds after an operation whose exact result is `x`: the result wraps
around modulo `2^32`, which is what the compiled program does on signed overflow (the language
leaves it undefined). -/
def wrapInt (x : Int) : Int := (x + 2147483648) % 4294967296 - 2147483648

namespace MaintenanceManager

/-- Method `updateMileage` with the subtraction `maintenanceSchedule[id] -= mileage` done in
`int`. -/
def updateMileage32 (s : MaintenanceManager) (id : String) (mileage : Int) :
    MaintenanceManager :=
  match s.maintenanceSchedule.find id with
  | some old =>
    let schedule := s.maintenanceSchedule.assign id (wrapInt (old - mileage))
    if wrapInt (old - mileage) ≤ 0 then
      { maintenanceSchedule := schedule
        maintenanceRequired := s.maintenanceRequired.assign id true }
    else
      { maintenanceSchedule := schedule
        maintenanceRequired := s.maintenanceRequired }
  | none => s

end MaintenanceManager

/-! ## `Location<double>::distanceTo`, over the reals -/

/-- Library function `atan2(y, x)` of `<cmath>`, over the reals: the argument of `x + iy`. -/
noncomputable def atan2 (y x : ℝ) : ℝ := Complex.arg ⟨x, y⟩

namespace Location

/-- The local variable `a` of `distanceTo`, every operation on `double` taken over the reals
and `M_PI` taken as `π`. -/
noncomputable def haversine (p other : Location ℝ) : ℝ :=
  let lat_diff := (other.latitude - p.latitude) * Real.pi / 180
  let lon_diff := (other.longitude - p.longitude) * Real.pi / 180
  Real.sin (lat_diff / 2) * Real.sin (lat_diff / 2) +
    Real.cos (p.latitude * Real.pi / 180) * Real.cos (other.latitude * Real.pi / 180) *
      Real.sin (lon_diff / 2) * Real.sin (lon_diff / 2)

/-- Method `double distanceTo(const Location& other) const`, over the reals. -/
noncomputable def distanceTo (p other : Location ℝ) : ℝ :=
  let EARTH_RADIUS : ℝ := 6371
  let a := haversine p other
  let c := 2 * atan2 (Real.sqrt a) (Real.sqrt (1 - a))
  EARTH_RADIUS * c

end Location

/-- The `loc1` of `runTests`: Moscow. -/
noncomputable def loc1 : Location ℝ := ⟨55.7558, 37.6176⟩

/-- The `loc2` of `runTests`: Paris. -/
noncomputable def loc2 : Location ℝ := ⟨48.8566, 2.3522⟩

/-- The `loc3` of `runTests`: New York. -/
noncomputable def loc3 : Location ℝ := ⟨40.7128, -74.0060⟩

/-- Runs one call on a scheduler, the arithmetic done in `int`. -/
def MaintenanceManager.step32 (s : MaintenanceManager) : MaintenanceCall → MaintenanceManager
  | .addVehicle id t => s.addVehicle id t
  | .updateMileage id m => s.updateMileage32 id m
  | .performMaintenance id t => s.performMaintenance id t

/-- Runs a sequence of calls on a scheduler, in order, the arithmetic done in `int`. -/
def MaintenanceManager.run32 (s : MaintenanceManager) (calls : List MaintenanceCall) :
    MaintenanceManager :=
  calls.foldl MaintenanceManager.step32 s

/-- The argument of a call is a value of `int`. -/
def MaintenanceCall.isInt : MaintenanceCall → Bool
  | .addVehicle _ t => decide (INT_MIN ≤ t ∧ t ≤ INT_MAX)
  | .updateMileage _ m => decide (INT_MIN ≤ m ∧ m ≤ INT_MAX)
  | .performMaintenance _ t => decide (INT_MIN ≤ t ∧ t ≤ INT_MAX)

/-- No subtraction of the run overflows: each `updateMileage` on a registered id leaves a
threshold in the range of `int`. -/
def MaintenanceManager.noOverflow : MaintenanceManager → List MaintenanceCall → Bool
  | _, [] => true
  | s, call :: rest =>
    (match call with
      | .updateMileage id m =>
        match s.maintenanceSchedule.find id with
        | some old => decide (INT_MIN ≤ old - m ∧ old - m ≤ INT_MAX)
        | none => true
      | _ => true) && noOverflow (s.step32 call) rest

/-! ## Lemmas on `StdMap` -/

namespace StdMap

theorem find_assign_same {T : Type} (m : StdMap T) (k : String) (v : T) :
    (m.assign k v).find k = some v := by
  induction m with
  | nil => simp [assign, find]
  | cons e rest ih =>
    obtain ⟨k', v'⟩ := e
    simp only [assign]
    split_ifs with h1 h2
    · simp [find]
    · simp [find]
    · simp [find, h1, ih]

theorem find_assign_other {T : Type} (m : StdMap T) (k j : String) (v : T) (hj : j ≠ k) :
    (m.assign k v).find j = m.find j := by
  induction m with
  | nil => simp [assign, find, hj.symm]
  | cons e rest ih =>
    obtain ⟨k', v'⟩ := e
    simp only [assign]
    split_ifs with h1 h2
    · subst h1
      simp [find, hj.symm]
    · simp [find, hj.symm]
    · simp [find, ih]

theorem assign_assign {T : Type} (m : StdMap T) (k : String) (v w : T) :
    (m.assign k v).assign k w = m.assign k w := by
  induction m with
  | nil => simp [assign]
  | cons e rest ih =>
    obtain ⟨k', v'⟩ := e
    simp only [assign]
    split_ifs with h1 h2
    · simp [assign]
    · simp [assign]
    · simp [assign, h1, h2, ih]

theorem subscript_of_find {T : Type} (m : StdMap T) (k : String) (dflt v : T)
    (h : m.find k = some v) : m.subscript k dflt = (v, m) := by
  simp [subscript, h]

end StdMap

/-! ## `MaintenanceManager`: the contracts of the three methods -/

namespace MaintenanceManager

theorem needsMaintenance_of_find (s : MaintenanceManager) (id : String) (f : Bool)
    (h : s.maintenanceRequired.find id = some f) : s.needsMaintenance id = f := by
  simp [needsMaintenance, h]

theorem updateMileage_of_find (s : MaintenanceManager) (id : String) (t m : Int)
    (h : s.maintenanceSchedule.find id = some t) :
    s.updateMileage id m =
      { maintenanceSchedule := s.maintenanceSchedule.assign id (t - m)
        maintenanceRequired :=
          if t - m ≤ 0 then s.maintenanceRequired.assign id true else s.maintenanceRequired } := by
  simp only [updateMileage, h]
  split_ifs <;> rfl

theorem updateMileage_of_not_find (s : MaintenanceManager) (id : String) (m : Int)
    (h : s.maintenanceSchedule.find id = none) : s.updateMileage id m = s := by
  simp [updateMileage, h]

theorem performMaintenance_of_find (s : MaintenanceManager) (id : String) (t : Int) (f : Bool)
    (h : s.maintenanceRequired.find id = some f) :
    s.performMaintenance id t =
      { maintenanceSchedule := s.maintenanceSchedule.assign id t
        maintenanceRequired := s.maintenanceRequired.assign id false } := by
  simp [performMaintenance, h]

theorem performMaintenance_of_not_find (s : MaintenanceManager) (id : String) (t : Int)
    (h : s.maintenanceRequired.find id = none) : s.performMaintenance id t = s := by
  simp [performMaintenance, h]

/-- The due flag of `id` is kept by `updateMileage` once it is set, whatever id is updated. -/
theorem updateMileage_keeps_due (s : MaintenanceManager) (id id' : String) (m : Int)
    (h : s.maintenanceRequired.find id = some true) :
    (s.updateMileage id' m).maintenanceRequired.find id = some true := by
  cases hs : s.maintenanceSchedule.find id' with
  | none => rw [updateMileage_of_not_find s id' m hs]; exact h
  | some t =>
    rw [updateMileage_of_find s id' t m hs]
    by_cases hle : t - m ≤ 0
    · simp only [hle, if_true]
      by_cases hid : id = id'
      · subst hid; exact StdMap.find_assign_same _ _ _
      · rw [StdMap.find_assign_other _ _ _ _ hid]; exact h
    · simp only [hle, if_false]; exact h

/-- After `updateMileage` on an id with stored threshold `t`: the new threshold, and when the
id is due. -/
theorem updateMileage_threshold_and_due (s : MaintenanceManager) (id : String) (t m : Int)
    (h : s.maintenanceSchedule.find id = some t) :
    (s.updateMileage id m).maintenanceSchedule.find id = some (t - m) ∧
    ((s.updateMileage id m).needsMaintenance id = true ↔
      (s.needsMaintenance id = true ∨ t - m ≤ 0)) := by
  rw [updateMileage_of_find s id t m h]
  refine ⟨StdMap.find_assign_same _ _ _, ?_⟩
  by_cases hle : t - m ≤ 0
  · simp [needsMaintenance, hle, StdMap.find_assign_same]
  · simp [needsMaintenance, hle]

/-- Claim C1. `updateMileage(id, m)` on an id whose stored threshold is `t`: the stored
threshold becomes exactly `t - m` (no floor), `needsMaintenance(id)` is true afterwards iff it
was true before or `t - m ≤ 0`, a stored flag `f` becomes `f || (t - m ≤ 0)`, and from a state
where the id is not due it becomes due iff `t - m ≤ 0`. -/
theorem C1_updateMileage_registered (s : MaintenanceManager) (id : String) (t m : Int)
    (h : s.maintenanceSchedule.find id = some t) :
    (s.updateMileage id m).maintenanceSchedule.find id = some (t - m) ∧
    ((s.updateMileage id m).needsMaintenance id = true ↔
      (s.needsMaintenance id = true ∨ t - m ≤ 0)) ∧
    (∀ f : Bool, s.maintenanceRequired.find id = some f →
      (s.updateMileage id m).maintenanceRequired.find id = some (f || decide (t - m ≤ 0))) ∧
    (s.needsMaintenance id = false →
      ((s.updateMileage id m).needsMaintenance id = true ↔ t - m ≤ 0)) := by
  rw [updateMileage_of_find s id t m h]
  have key : (needsMaintenance
      { maintenanceSchedule := s.maintenanceSchedule.assign id (t - m)
        maintenanceRequired :=
          if t - m ≤ 0 then s.maintenanceRequired.assign id true else s.maintenanceRequired }
      id = true ↔ (s.needsMaintenance id = true ∨ t - m ≤ 0)) := by
    by_cases hle : t - m ≤ 0
    · simp [needsMaintenance, hle, StdMap.find_assign_same]
    · simp [needsMaintenance, hle]
  refine ⟨StdMap.find_assign_same _ _ _, key, ?_, ?_⟩
  · intro f hf
    by_cases hle : t - m ≤ 0
    · simp [hle, StdMap.find_assign_same]
    · simp [hle, hf]
  · intro hn
    rw [key]
    simp [hn]

/-- Witness of C1: `addVehicle("V1", 500)` then `updateMileage("V1", 600)` makes
`needsMaintenance("V1")` true. -/
theorem C1_updateMileage_registered_witness :
    (empty.addVehicle "V1" 500).maintenanceSchedule.find "V1" = some 500 ∧
    ((empty.addVehicle "V1" 500).updateMileage "V1" 600).maintenanceSchedule.find "V1"
      = some (-100) ∧
    ((empty.addVehicle "V1" 500).updateMileage "V1" 600).needsMaintenance "V1" = true :=
  ⟨by decide,
   (C1_updateMileage_registered (empty.addVehicle "V1" 500) "V1" 500 600 (by decide)).1,
   (C1_updateMileage_registered (empty.addVehicle "V1" 500) "V1" 500 600 (by decide)).2.1.mpr
     (Or.inr (by decide))⟩

/-- Claim C2 as stated fails: in the state reached by `addVehicle("V1", 500)`,
`updateMileage("V1", 600)` the flag of `V1` is set, and `addVehicle("V1", 500)`, which is not
`performMaintenance`, clears it. -/
theorem C2_addVehicle_clears_due :
    ((empty.addVehicle "V1" 500).updateMileage "V1" 600).maintenanceRequired.find "V1"
      = some true ∧
    (((empty.addVehicle "V1" 500).updateMileage "V1" 600).addVehicle "V1" 500).maintenanceRequired.find
      "V1" = some false ∧
    (((empty.addVehicle "V1" 500).updateMileage "V1" 600).addVehicle "V1" 500).needsMaintenance
      "V1" = false := by
  decide

/-- Claim C2, amended. Once the due flag of `id` is set, it is still set after any
`updateMileage` call (any id, any integer) and after any `addVehicle` or `performMaintenance`
call on another id; `addVehicle` on `id` itself clears the flag and stores its argument as the
threshold, exactly as `performMaintenance` on `id` does. -/
theorem C2_due_sticky (s : MaintenanceManager) (id : String)
    (h : s.maintenanceRequired.find id = some true) :
    (∀ (id' : String) (m : Int),
      (s.updateMileage id' m).maintenanceRequired.find id = some true ∧
      (s.updateMileage id' m).needsMaintenance id = true) ∧
    (∀ (id' : String) (t : Int), id' ≠ id →
      (s.addVehicle id' t).maintenanceRequired.find id = some true ∧
      (s.addVehicle id' t).needsMaintenance id = true) ∧
    (∀ (id' : String) (t : Int), id' ≠ id →
      (s.performMaintenance id' t).maintenanceRequired.find id = some true ∧
      (s.performMaintenance id' t).needsMaintenance id = true) ∧
    (∀ t : Int,
      (s.addVehicle id t).maintenanceRequired.find id = some false ∧
      (s.addVehicle id t).maintenanceSchedule.find id = some t) ∧
    (∀ t : Int,
      (s.performMaintenance id t).maintenanceRequired.find id = some false ∧
      (s.performMaintenance id t).maintenanceSchedule.find id = some t) := by
  refine ⟨?_, ?_, ?_, ?_, ?_⟩
  · intro id' m
    have h' := updateMileage_keeps_due s id id' m h
    exact ⟨h', needsMaintenance_of_find _ _ _ h'⟩
  · intro id' t hne
    have h' : (s.addVehicle id' t).maintenanceRequired.find id = some true := by
      simp only [addVehicle]
      rw [StdMap.find_assign_other _ _ _ _ (Ne.symm hne)]
      exact h
    exact ⟨h', needsMaintenance_of_find _ _ _ h'⟩
  · intro id' t hne
    have h' : (s.performMaintenance id' t).maintenanceRequired.find id = some true := by
      cases hr : s.maintenanceRequired.find id' with
      | none => rw [performMaintenance_of_not_find s id' t hr]; exact h
      | some f =>
        rw [performMaintenance_of_find s id' t f hr]
        simp only
        rw [StdMap.find_assign_other _ _ _ _ (Ne.symm hne)]
        exact h
    exact ⟨h', needsMaintenance_of_find _ _ _ h'⟩
  · intro t
    exact ⟨StdMap.find_assign_same _ _ _, StdMap.find_assign_same _ _ _⟩
  · intro t
    rw [performMaintenance_of_find s id t true h]
    exact ⟨StdMap.find_assign_same _ _ _, StdMap.find_assign_same _ _ _⟩

/-- Witness of C2 (amended): the state after `addVehicle("V1", 500)`,
`updateMileage("V1", 600)` has the flag of `V1` set, and a further `updateMileage("V1", -900)`
leaves it set. -/
theorem C2_due_sticky_witness :
    ((empty.addVehicle "V1" 500).updateMileage "V1" 600).maintenanceRequired.find "V1"
      = some true ∧
    (((empty.addVehicle "V1" 500).updateMileage "V1" 600).updateMileage "V1" (-900)).needsMaintenance
      "V1" = true :=
  ⟨by decide,
   ((C2_due_sticky ((empty.addVehicle "V1" 500).updateMileage "V1" 600) "V1" (by decide)).1
      "V1" (-900)).2⟩

/-- Claim C3. `performMaintenance(id, t)` on a registered id (one with an entry in
`maintenanceRequired`, the map the method tests), whatever its flag, its old threshold and the
sign of `t`: afterwards `needsMaintenance(id)` is false, the stored flag is false and the
stored threshold is exactly `t`. -/
theorem C3_performMaintenance_resets (s : MaintenanceManager) (id : String) (t : Int)
    (h : (s.maintenanceRequired.find id).isSome = true) :
    (s.performMaintenance id t).needsMaintenance id = false ∧
    (s.performMaintenance id t).maintenanceRequired.find id = some false ∧
    (s.performMaintenance id t).maintenanceSchedule.find id = some t := by
  obtain ⟨f, hf⟩ := Option.isSome_iff_exists.mp h
  rw [performMaintenance_of_find s id t f hf]
  have hreq : (s.maintenanceRequired.assign id false).find id = some false :=
    StdMap.find_assign_same _ _ _
  exact ⟨needsMaintenance_of_find _ _ _ hreq, hreq, StdMap.find_assign_same _ _ _⟩

/-- Witness of C3: threshold 500, `updateMileage` 600, then `performMaintenance(id, 800)`
gives `needsMaintenance(id) = false` and the threshold 800. -/
theorem C3_performMaintenance_resets_witness :
    (((empty.addVehicle "V1" 500).updateMileage "V1" 600).maintenanceRequired.find "V1").isSome
      = true ∧
    ((empty.addVehicle "V1" 500).updateMileage "V1" 600).needsMaintenance "V1" = true ∧
    (((empty.addVehicle "V1" 500).updateMileage "V1" 600).performMaintenance "V1" 800).needsMaintenance
      "V1" = false ∧
    (((empty.addVehicle "V1" 500).updateMileage "V1" 600).performMaintenance "V1"
      800).maintenanceSchedule.find "V1" = some 800 :=
  ⟨by decide, by decide,
   (C3_performMaintenance_resets ((empty.addVehicle "V1" 500).updateMileage "V1" 600) "V1" 800
      (by decide)).1,
   (C3_performMaintenance_resets ((empty.addVehicle "V1" 500).updateMileage "V1" 600) "V1" 800
      (by decide)).2.2⟩

/-- Claim C4. `addVehicle(id, t)` is last-write-wins: from any state and for any id and `t`,
afterwards the id has an entry in both maps, the stored threshold is exactly `t`, the stored
flag is false and `needsMaintenance(id)` is false; registering twice, with `t1` then `t2`,
gives the same state as registering once with `t2`. -/
theorem C4_addVehicle_last_write_wins (s : MaintenanceManager) (id : String) (t1 t2 : Int) :
    (s.addVehicle id t2).maintenanceSchedule.find id = some t2 ∧
    (s.addVehicle id t2).maintenanceRequired.find id = some false ∧
    (s.addVehicle id t2).needsMaintenance id = false ∧
    (s.addVehicle id t1).addVehicle id t2 = s.addVehicle id t2 := by
  have hreq : (s.addVehicle id t2).maintenanceRequired.find id = some false :=
    StdMap.find_assign_same _ _ _
  refine ⟨StdMap.find_assign_same _ _ _, hreq, needsMaintenance_of_find _ _ _ hreq, ?_⟩
  simp only [addVehicle, StdMap.assign_assign]

/-- Claim C5. On an id with no entry in either map, `needsMaintenance` returns false and
`updateMileage` and `performMaintenance` return the state they were given, for any integer
argument; the id has no entry afterwards either. -/
theorem C5_unregistered_noop (s : MaintenanceManager) (id : String)
    (hS : s.maintenanceSchedule.find id = none) (hR : s.maintenanceRequired.find id = none) :
    s.needsMaintenance id = false ∧
    (∀ m : Int, s.updateMileage id m = s ∧
      (s.updateMileage id m).maintenanceSchedule.find id = none ∧
      (s.updateMileage id m).maintenanceRequired.find id = none) ∧
    (∀ t : Int, s.performMaintenance id t = s ∧
      (s.performMaintenance id t).maintenanceSchedule.find id = none ∧
      (s.performMaintenance id t).maintenanceRequired.find id = none) := by
  refine ⟨by simp [needsMaintenance, hR], ?_, ?_⟩
  · intro m
    rw [updateMileage_of_not_find s id m hS]
    exact ⟨rfl, hS, hR⟩
  · intro t
    rw [performMaintenance_of_not_find s id t hR]
    exact ⟨rfl, hS, hR⟩

/-- Witness of C5: with only `V1` registered, `updateMileage("V2", 600)` and
`performMaintenance("V2", 800)` change nothing. -/
theorem C5_unregistered_noop_witness :
    (empty.addVehicle "V1" 500).maintenanceSchedule.find "V2" = none ∧
    (empty.addVehicle "V1" 500).maintenanceRequired.find "V2" = none ∧
    (empty.addVehicle "V1" 500).updateMileage "V2" 600 = empty.addVehicle "V1" 500 ∧
    (empty.addVehicle "V1" 500).performMaintenance "V2" 800 = empty.addVehicle "V1" 500 :=
  ⟨by decide, by decide,
   ((C5_unregistered_noop (empty.addVehicle "V1" 500) "V2" (by decide) (by decide)).2.1 600).1,
   ((C5_unregistered_noop (empty.addVehicle "V1" 500) "V2" (by decide) (by decide)).2.2 800).1⟩

end MaintenanceManager

/-! ## `generateID`: the identifiers are pairwise distinct -/

theorem foldl_digits_shift (l : List Char) (a : Nat) :
    l.foldl (fun acc c => 10 * acc + (c.toNat - 48)) a
      = a * 10 ^ l.length + l.foldl (fun acc c => 10 * acc + (c.toNat - 48)) 0 := by
  induction l generalizing a with
  | nil => simp
  | cons c rest ih =>
    simp only [List.foldl_cons, List.length_cons]
    rw [ih (10 * a + (c.toNat - 48)), ih (10 * 0 + (c.toNat - 48))]
    ring

theorem digitChar_value (d : Nat) (h : d < 10) : (Nat.digitChar d).toNat - 48 = d := by
  interval_cases d <;> rfl

theorem digitsValue_cons (c : Char) (ds : List Char) :
    digitsValue (c :: ds) = (c.toNat - 48) * 10 ^ ds.length + digitsValue ds := by
  unfold digitsValue
  rw [List.foldl_cons, foldl_digits_shift]
  simp

theorem digitsValue_toDigitsCore (fuel : Nat) : ∀ (n : Nat) (ds : List Char), n < fuel →
    digitsValue (Nat.toDigitsCore 10 fuel n ds) = n * 10 ^ ds.length + digitsValue ds := by
  induction fuel with
  | zero => intro n ds h; omega
  | succ fuel ih =>
    intro n ds h
    simp only [Nat.toDigitsCore]
    split_ifs with h0
    · rw [digitsValue_cons, digitChar_value _ (Nat.mod_lt _ (by decide))]
      have hn : n % 10 = n := by omega
      rw [hn]
    · rw [ih (n / 10) _ (by omega), digitsValue_cons,
        digitChar_value _ (Nat.mod_lt _ (by decide))]
      simp only [List.length_cons, pow_succ]
      have hn : n = 10 * (n / 10) + n % 10 := (Nat.div_add_mod n 10).symm
      generalize n / 10 = q at hn ⊢
      generalize n % 10 = r at hn ⊢
      subst hn
      ring

/-- Reading back the digits `to_string` wrote gives the number. -/
theorem digitsValue_to_string (n : Nat) : digitsValue (to_string n).data = n := by
  have h := digitsValue_toDigitsCore (n + 1) n [] (Nat.lt_succ_self n)
  simpa [to_string, Nat.repr, Nat.toDigits, List.asString, digitsValue] using h

/-- The identifier built from a counter value determines the counter value. -/
theorem generateID_fst_injective (a b : Nat) (h : (generateID a).1 = (generateID b).1) :
    a = b := by
  have h' := congrArg (fun s : String => digitsValue (s.data.drop 1)) h
  simpa [generateID, String.data_append, digitsValue_to_string] using h'

theorem generateIDs_eq_map (n : Nat) : ∀ counter : Nat,
    generateIDs n counter = (List.range n).map (fun k => "V" ++ to_string (counter + k)) := by
  induction n with
  | zero => intro counter; simp [generateIDs]
  | succ n ih =>
    intro counter
    rw [generateIDs, List.range_succ_eq_map, List.map_cons, List.map_map]
    have hstep : (generateID counter).2 = counter + 1 := rfl
    rw [hstep, ih (counter + 1)]
    congr 1
    apply List.map_congr_left
    intro k _
    simp only [Function.comp, Nat.succ_eq_add_one]
    rw [show counter + 1 + k = counter + (k + 1) by omega]

theorem generateIDs_nodup (n counter : Nat) : (generateIDs n counter).Nodup := by
  rw [generateIDs_eq_map]
  refine List.Nodup.map ?_ (List.nodup_range n)
  intro a b hab
  have := generateID_fst_injective (counter + a) (counter + b) hab
  omega

theorem constructorCall_run (call : ConstructorCall) (counter : Nat) :
    (call.run counter).1.getID = (generateID counter).1 ∧
    (call.run counter).2 = (generateID counter).2 := by
  cases call <;> exact ⟨rfl, rfl⟩

theorem constructAll_ids (calls : List ConstructorCall) : ∀ counter : Nat,
    (constructAll calls counter).map VehicleObject.getID
      = generateIDs calls.length counter := by
  induction calls with
  | nil => intro counter; rfl
  | cons call rest ih =>
    intro counter
    simp only [constructAll, List.map_cons, List.length_cons, generateIDs]
    rw [(constructorCall_run call counter).1, (constructorCall_run call counter).2, ih]

/-- Claim C6. The identifiers returned by `N` successive `generateID` calls are pairwise
distinct, from any counter value; from the program's start the call number `k + 1` returns
`"V"` followed by the decimal digits of `k + 1`, so the first eleven are `V1` to `V11`; the
ids of the vehicles built by any sequence of constructor calls, of any variant and either
constructor, are these identifiers and so are pairwise distinct. -/
theorem C6_generateID_distinct (N counter : Nat) :
    (generateIDs N counter).Nodup ∧
    generateIDs N initialCounter = (List.range N).map (fun k => "V" ++ to_string (k + 1)) ∧
    generateIDs 11 initialCounter
      = ["V1", "V2", "V3", "V4", "V5", "V6", "V7", "V8", "V9", "V10", "V11"] ∧
    (∀ calls : List ConstructorCall,
      (constructAll calls counter).map VehicleObject.getID = generateIDs calls.length counter ∧
      ((constructAll calls counter).map VehicleObject.getID).Nodup) := by
  refine ⟨generateIDs_nodup N counter, ?_, by decide, ?_⟩
  · rw [generateIDs_eq_map]
    apply List.map_congr_left
    intro k _
    simp only [initialCounter]
    rw [Nat.add_comm 1 k]
  · intro calls
    refine ⟨constructAll_ids calls counter, ?_⟩
    rw [constructAll_ids]
    exact generateIDs_nodup _ _

/-! ## `FleetManager` -/

namespace FleetManager

/-- Claim C7. `FleetManager::addVehicle(v, t)`: the vehicle sequence is the old one with `v`
appended (the old vehicles keep their positions, `v` is at the end), the embedded scheduler is
the one `MaintenanceManager::addVehicle(v.id, t)` produces, so it holds threshold `t` and a
cleared flag for the id of `v`, and the locations are unchanged. -/
theorem C7_addVehicle_appends (fm : FleetManager) (v : VehicleObject) (t : Int) :
    (fm.addVehicle v t).vehicles = fm.vehicles ++ [v] ∧
    (fm.addVehicle v t).vehicles.take fm.vehicles.length = fm.vehicles ∧
    (fm.addVehicle v t).vehicles[fm.vehicles.length]? = some v ∧
    (fm.addVehicle v t).vehicles.length = fm.vehicles.length + 1 ∧
    (fm.addVehicle v t).maintenanceManager = fm.maintenanceManager.addVehicle v.getID t ∧
    (fm.addVehicle v t).maintenanceManager.maintenanceSchedule.find v.getID = some t ∧
    (fm.addVehicle v t).maintenanceManager.maintenanceRequired.find v.getID = some false ∧
    (fm.addVehicle v t).needsMaintenance v.getID = false ∧
    (fm.addVehicle v t).locations = fm.locations := by
  have hreq : (fm.maintenanceManager.addVehicle v.getID t).maintenanceRequired.find v.getID
      = some false := StdMap.find_assign_same _ _ _
  refine ⟨rfl, ?_, ?_, ?_, rfl, StdMap.find_assign_same _ _ _, hreq,
    MaintenanceManager.needsMaintenance_of_find _ _ _ hreq, rfl⟩
  · simp [addVehicle]
  · simp [addVehicle]
  · simp [addVehicle]

theorem subscript_snd_of_find_ne_none {T : Type} (m : StdMap T) (k : String) (dflt : T)
    (h : m.find k ≠ none) : (m.subscript k dflt).2 = m := by
  cases hk : m.find k with
  | none => exact absurd hk h
  | some v => simp [StdMap.subscript, hk]

/-- The registry is the same after `buildRoute`, whatever the outcome: the two `locations[...]`
accesses come after the test that both keys are present. -/
theorem buildRoute_fleet (env : Environment) (fm : FleetManager)
    (startID endID outputFilePath : String) :
    (buildRoute env fm startID endID outputFilePath).fleet = fm := by
  unfold buildRoute
  by_cases h : fm.locations.find startID = none ∨ fm.locations.find endID = none
  · rw [if_pos h]
  · rw [if_neg h]
    have hs : fm.locations.find startID ≠ none := fun hc => h (Or.inl hc)
    have he : fm.locations.find endID ≠ none := fun hc => h (Or.inr hc)
    have h1 : (fm.locations.subscript startID Location.default).2 = fm.locations :=
      subscript_snd_of_find_ne_none _ _ _ hs
    have h2 : ((fm.locations.subscript startID Location.default).2.subscript endID
        Location.default).2 = fm.locations := by
      rw [h1]; exact subscript_snd_of_find_ne_none _ _ _ he
    dsimp only
    rw [h2]
    generalize queryRouteAPI env _ _ = query
    obtain ⟨command, message | routeResponse⟩ := query
    · rfl
    · dsimp only
      split_ifs <;> rfl

theorem buildRoute_known (env : Environment) (fm : FleetManager)
    (startID endID outputFilePath : String)
    (h : ¬ (fm.locations.find startID = none ∨ fm.locations.find endID = none)) :
    (buildRoute env fm startID endID outputFilePath).error ≠ some invalidLocationMessage ∧
    (buildRoute env fm startID endID outputFilePath).effects ≠ [] := by
  have hq : ∀ start finish : String,
      (queryRouteAPI env start finish).2 ≠ .error invalidLocationMessage := by
    intro start finish
    unfold queryRouteAPI
    dsimp only
    split
    · intro hc
      injection hc with hc'
      exact absurd hc' (by decide)
    · intro hc
      cases hc
  unfold buildRoute
  rw [if_neg h]
  dsimp only
  have hq' := hq
    (Location.toString env.formatDouble (fm.locations.subscript startID Location.default).1)
    (Location.toString env.formatDouble
      ((fm.locations.subscript startID Location.default).2.subscript endID Location.default).1)
  generalize queryRouteAPI env _ _ = query at hq' ⊢
  obtain ⟨command, message | routeResponse⟩ := query
  · dsimp only at hq' ⊢
    refine ⟨?_, by simp⟩
    intro hc
    injection hc with hc'
    exact hq' (by rw [hc'])
  · dsimp only
    split_ifs
    · exact ⟨by simp, by simp⟩
    · refine ⟨?_, by simp⟩
      intro hc
      injection hc with hc'
      exact absurd hc' (by decide)

/-- Claim C8. If `startID` or `endID` is not a key of `locations`, `buildRoute` throws the
unknown-location error, runs no command and writes no file; when both are keys it does not
throw that error and it does call the routing service; in every case the registry (vehicles,
locations, scheduler) is the same afterwards, so no entry is inserted for a missing id. -/
theorem C8_buildRoute_unknown_location (env : Environment) (fm : FleetManager)
    (startID endID outputFilePath : String) :
    ((fm.locations.find startID = none ∨ fm.locations.find endID = none) →
      buildRoute env fm startID endID outputFilePath
        = { error := some invalidLocationMessage, fleet := fm, effects := [] }) ∧
    (¬ (fm.locations.find startID = none ∨ fm.locations.find endID = none) →
      (buildRoute env fm startID endID outputFilePath).error ≠ some invalidLocationMessage ∧
      (buildRoute env fm startID endID outputFilePath).effects ≠ []) ∧
    (buildRoute env fm startID endID outputFilePath).fleet = fm := by
  refine ⟨?_, buildRoute_known env fm startID endID outputFilePath,
    buildRoute_fleet env fm startID endID outputFilePath⟩
  intro h
  unfold buildRoute
  rw [if_pos h]

/-- Witness of C8: in an empty registry `buildRoute("A", "B", "route.json")` throws the
unknown-location error with no effect; with the two locations of `main` stored and no pipe
available it throws another error, after running the command. -/
theorem C8_buildRoute_unknown_location_witness :
    (empty.locations.find "A" = none ∨ empty.locations.find "B" = none) ∧
    buildRoute offlineEnvironment empty "A" "B" "route.json"
      = { error := some invalidLocationMessage, fleet := empty, effects := [] } ∧
    ¬ (mainFleet.locations.find "A" = none ∨ mainFleet.locations.find "B" = none) ∧
    (buildRoute offlineEnvironment mainFleet "A" "B" "route.json").error
      ≠ some invalidLocationMessage ∧
    (buildRoute offlineEnvironment mainFleet "A" "B" "route.json").effects ≠ [] :=
  ⟨Or.inl rfl,
   (C8_buildRoute_unknown_location offlineEnvironment empty "A" "B" "route.json").1 (Or.inl rfl),
   by decide,
   ((C8_buildRoute_unknown_location offlineEnvironment mainFleet "A" "B" "route.json").2.1
      (by decide)).1,
   ((C8_buildRoute_unknown_location offlineEnvironment mainFleet "A" "B" "route.json").2.1
      (by decide)).2⟩

theorem run_append_one (fm : FleetManager) (calls : List FleetCall) (call : FleetCall) :
    fm.run (calls ++ [call]) = (fm.run calls).step call := by
  simp [run, List.foldl_append]

theorem step_maintenanceManager (fm : FleetManager) (call : FleetCall) :
    (fm.step call).maintenanceManager = fm.maintenanceManager.step call.toMaintenanceCall := by
  cases call <;> rfl

theorem step_locations (fm : FleetManager) (call : FleetCall) :
    (fm.step call).locations = fm.locations := by
  cases call <;> rfl

theorem step_vehicles (fm : FleetManager) (call : FleetCall) :
    (fm.step call).vehicles = fm.vehicles ++ FleetCall.added [call] := by
  cases call <;> simp [step, addVehicle, updateMileage, performMaintenance, FleetCall.added]

theorem added_cons (call : FleetCall) (rest : List FleetCall) :
    FleetCall.added (call :: rest) = FleetCall.added [call] ++ FleetCall.added rest := by
  cases call <;> simp [FleetCall.added]

theorem run_delegates (calls : List FleetCall) : ∀ fm : FleetManager,
    (fm.run calls).maintenanceManager
      = fm.maintenanceManager.run (calls.map FleetCall.toMaintenanceCall) ∧
    (fm.run calls).vehicles = fm.vehicles ++ FleetCall.added calls ∧
    (fm.run calls).locations = fm.locations := by
  induction calls with
  | nil => intro fm; simp [run, MaintenanceManager.run, FleetCall.added]
  | cons call rest ih =>
    intro fm
    have h := ih (fm.step call)
    simp only [run, MaintenanceManager.run, List.foldl_cons, List.map_cons] at h ⊢
    rw [step_maintenanceManager, step_locations, step_vehicles] at h
    refine ⟨h.1, ?_, h.2.2⟩
    rw [h.2.1, added_cons call rest, List.append_assoc]

/-- Claim C9. After any sequence of `FleetManager` calls `addVehicle`, `updateMileage`,
`performMaintenance`, from any registry, the embedded scheduler is the one a standalone
`MaintenanceManager` reaches from the same scheduler state under the corresponding calls
(`addVehicle` with the id of the vehicle), so `needsMaintenance` agrees on every id; the
vehicle sequence only grows by the vehicles added, in order, and the locations are unchanged.
In the registry of `runTests`, `updateMileage(bike, 350)` gives true and then
`performMaintenance(bike, 1000)` gives false. -/
theorem C9_maintenance_delegation (fm : FleetManager) (calls : List FleetCall) :
    (fm.run calls).maintenanceManager
      = fm.maintenanceManager.run (calls.map FleetCall.toMaintenanceCall) ∧
    (∀ id : String, (fm.run calls).needsMaintenance id
      = (fm.maintenanceManager.run (calls.map FleetCall.toMaintenanceCall)).needsMaintenance id) ∧
    (fm.run calls).vehicles = fm.vehicles ++ FleetCall.added calls ∧
    (fm.run calls).locations = fm.locations ∧
    (testFleet.updateMileage testBike.getID 350).needsMaintenance testBike.getID = true ∧
    ((testFleet.updateMileage testBike.getID 350).performMaintenance testBike.getID
      1000).needsMaintenance testBike.getID = false := by
  obtain ⟨h1, h2, h3⟩ := run_delegates calls fm
  refine ⟨h1, ?_, h2, h3, by decide, by decide⟩
  intro id
  simp only [needsMaintenance, h1]

end FleetManager

/-! ## `Vehicle`: equality -/

namespace Vehicle

theorem generateID_fst_ne (counter d : Nat) :
    (generateID counter).1 ≠ (generateID (counter + 1 + d)).1 := by
  intro h
  have := generateID_fst_injective _ _ h
  omega

/-- Claim C10. For all vehicles `a` and `b`, of any variants, `a == b` holds iff the ids
are equal, whatever the other members are, and `a != b` is its negation; two vehicles built
by two constructor calls, the second at a later counter value, are unequal whatever the
arguments; after `*car2 = *car`, which copies every member of `car`, the id included,
`*car == *car2` holds and both report the same `analyzeUsageEfficiency()`. -/
theorem C10_equality_by_id (a b : Vehicle) (x y : VehicleObject) (car car2 : Car)
    (call1 call2 : ConstructorCall) (counter d : Nat) :
    (a.operator_eq b = true ↔ a.vehicle_id = b.vehicle_id) ∧
    a.operator_eq b = decide (a.getID = b.getID) ∧
    a.operator_ne b = !(a.operator_eq b) ∧
    (x.toVehicle.operator_eq y.toVehicle = true ↔ x.getID = y.getID) ∧
    (call1.run counter).1.toVehicle.operator_eq (call2.run (counter + 1 + d)).1.toVehicle
      = false ∧
    (call1.run counter).1.toVehicle.operator_ne (call2.run (counter + 1 + d)).1.toVehicle
      = true ∧
    Car.operator_assign car2 car = car ∧
    car.toVehicle.operator_eq (Car.operator_assign car2 car).toVehicle = true ∧
    (Car.operator_assign car2 car).toVehicle.analyzeUsageEfficiency
      = car.toVehicle.analyzeUsageEfficiency ∧
    testCar.toVehicle.operator_ne (Car.create "Honda" "Civic" 5000 15 4 (initialCounter + 3)).1.toVehicle
      = true := by
  have hne : (call1.run counter).1.getID ≠ (call2.run (counter + 1 + d)).1.getID := by
    rw [(constructorCall_run call1 counter).1, (constructorCall_run call2 _).1]
    exact generateID_fst_ne counter d
  have hassign : Car.operator_assign car2 car = car := rfl
  refine ⟨by simp [operator_eq], rfl, rfl, by simp [operator_eq, VehicleObject.getID, getID],
    ?_, ?_, hassign, ?_, ?_, by decide⟩
  · simpa [operator_eq, VehicleObject.getID, getID] using hne
  · simpa [operator_ne, operator_eq, VehicleObject.getID, getID] using hne
  · rw [hassign]; simp [operator_eq]
  · rw [hassign]

end Vehicle

/-! ## `Vehicle`: identity, zero fuel efficiency -/

namespace Vehicle

theorem operator_plus_eq_vehicle_id (v : Vehicle) (delta : ℚ) :
    (v.operator_plus_eq delta).vehicle_id = v.vehicle_id := by
  unfold operator_plus_eq
  split_ifs <;> rfl

theorem foldl_operator_plus_eq_vehicle_id (deltas : List ℚ) : ∀ v : Vehicle,
    (deltas.foldl operator_plus_eq v).vehicle_id = v.vehicle_id := by
  induction deltas with
  | nil => intro v; rfl
  | cons delta rest ih =>
    intro v
    rw [List.foldl_cons, ih, operator_plus_eq_vehicle_id]

/-- Claim C11 as stated fails: `car2` of `runTests` is constructed with the id `V4`, and after
`*car2 = *car` its id is `V1`, the id of `car`. -/
theorem C11_assignment_overwrites_id :
    testCar2.getID = (generateID (initialCounter + 3)).1 ∧
    testCar2.getID = "V4" ∧
    (testCar2.apply (.assignFrom testCar)).getID = "V1" ∧
    (testCar2.apply (.assignFrom testCar)).getID ≠ (generateID (initialCounter + 3)).1 := by
  decide

/-- Claim C11, amended. The id of a vehicle is the one `generateID` assigned in its
constructor after any sequence of `operator+=` calls, whatever the deltas; an assignment from
another vehicle, as `*car2 = *car`, overwrites the id of the target with the id of the source,
and `operator+=` calls after it keep that id. -/
theorem C11_id_kept_by_plus_eq (v : Vehicle) (deltas : List ℚ) (call : ConstructorCall)
    (counter : Nat) (target source : Car) :
    (deltas.foldl operator_plus_eq v).getID = v.getID ∧
    (deltas.foldl operator_plus_eq (call.run counter).1.toVehicle).getID
      = (generateID counter).1 ∧
    (deltas.foldl Car.operator_plus_eq target).getID = target.getID ∧
    (target.apply (.assignFrom source)).getID = source.getID ∧
    (deltas.foldl Car.operator_plus_eq (target.apply (.assignFrom source))).getID
      = source.getID ∧
    (operator_assign target.toVehicle source.toVehicle).getID = source.getID := by
  have hcar : ∀ (ds : List ℚ) (c : Car),
      (ds.foldl Car.operator_plus_eq c).getID = c.getID := by
    intro ds
    induction ds with
    | nil => intro c; rfl
    | cons d rest ih =>
      intro c
      rw [List.foldl_cons, ih]
      exact operator_plus_eq_vehicle_id c.toVehicle d
  refine ⟨foldl_operator_plus_eq_vehicle_id deltas v, ?_, hcar deltas target, rfl, ?_, rfl⟩
  · have h := foldl_operator_plus_eq_vehicle_id deltas (call.run counter).1.toVehicle
    simp only [getID] at h ⊢
    rw [h]
    exact (constructorCall_run call counter).1
  · rw [hcar]
    rfl

/-- Claim C15 as stated fails: a default-constructed vehicle has mileage 0 and fuel
efficiency 0, and `analyzeUsageEfficiency()` returns NaN for it, which is not `+Infinity`;
the method has no `throw`, so no error is raised either. -/
theorem C15_default_vehicle_nan :
    (Vehicle.default initialCounter).1.fuel_efficiency = 0 ∧
    (Vehicle.default initialCounter).1.mileage = 0 ∧
    (Vehicle.default initialCounter).1.analyzeUsageEfficiency = .nan ∧
    (Vehicle.default initialCounter).1.analyzeUsageEfficiency ≠ .inf false := by
  decide

/-- Claim C15, amended. For every vehicle whose fuel efficiency is zero,
`analyzeUsageEfficiency()` returns, without failing, the quotient by zero: `+Infinity` when the
mileage is positive, NaN when the mileage is zero, as for a default-constructed vehicle, and
`-Infinity` when the mileage is negative. -/
theorem C15_zero_fuel_efficiency (v : Vehicle) (counter : Nat)
    (h : v.fuel_efficiency = 0) :
    (0 < v.mileage → v.analyzeUsageEfficiency = .inf false) ∧
    (v.mileage = 0 → v.analyzeUsageEfficiency = .nan) ∧
    (v.mileage < 0 → v.analyzeUsageEfficiency = .inf true) ∧
    (Vehicle.default counter).1.analyzeUsageEfficiency = .nan := by
  refine ⟨?_, ?_, ?_, by simp [Vehicle.default, analyzeUsageEfficiency, DoubleValue.div]⟩
  · intro hm
    simp [analyzeUsageEfficiency, DoubleValue.div, h, ne_of_gt hm, not_lt.mpr (le_of_lt hm)]
  · intro hm
    simp [analyzeUsageEfficiency, DoubleValue.div, h, hm]
  · intro hm
    simp [analyzeUsageEfficiency, DoubleValue.div, h, ne_of_lt hm, hm]

/-- Witness of C15 (amended): a vehicle built with mileage 12000 and efficiency 0 reports
`+Infinity`. -/
theorem C15_zero_fuel_efficiency_witness :
    (Vehicle.create "Toyota" "Camry" 12000 0 initialCounter).1.fuel_efficiency = 0 ∧
    (Vehicle.create "Toyota" "Camry" 12000 0 initialCounter).1.analyzeUsageEfficiency
      = .inf false :=
  ⟨rfl,
   (C15_zero_fuel_efficiency (Vehicle.create "Toyota" "Camry" 12000 0 initialCounter).1 1
      rfl).1 (by norm_num [Vehicle.create])⟩

end Vehicle

/-! ## `MaintenanceManager`: invariants of the reachable states -/

namespace StdMap

theorem mem_assign {T : Type} (m : StdMap T) (k : String) (v : T) (e : String × T)
    (h : e ∈ m.assign k v) : e = (k, v) ∨ e ∈ m := by
  induction m with
  | nil => simpa [assign] using h
  | cons e' rest ih =>
    obtain ⟨k', v'⟩ := e'
    simp only [assign] at h
    split_ifs at h with h1 h2
    · rcases List.mem_cons.mp h with h | h
      · exact Or.inl h
      · exact Or.inr (List.mem_cons_of_mem _ h)
    · rcases List.mem_cons.mp h with h | h
      · exact Or.inl h
      · exact Or.inr h
    · rcases List.mem_cons.mp h with h | h
      · exact Or.inr (h ▸ List.mem_cons_self _ _)
      · rcases ih h with h | h
        · exact Or.inl h
        · exact Or.inr (List.mem_cons_of_mem _ h)

theorem ordered_cons {T : Type} (e : String × T) (m : StdMap T) :
    Ordered (e :: m) ↔ (∀ e' ∈ m, e.1.data < e'.1.data) ∧ Ordered m := by
  simp [Ordered, List.pairwise_cons]

theorem ordered_assign {T : Type} (m : StdMap T) (k : String) (v : T) (h : m.Ordered) :
    (m.assign k v).Ordered := by
  induction m with
  | nil => simp [assign, Ordered]
  | cons e rest ih =>
    obtain ⟨k', v'⟩ := e
    rw [ordered_cons] at h
    simp only [assign]
    split_ifs with h1 h2
    · subst h1
      rw [ordered_cons]
      exact h
    · rw [ordered_cons]
      refine ⟨?_, (ordered_cons _ _).mpr h⟩
      intro e' he'
      rcases List.mem_cons.mp he' with he' | he'
      · rw [he']; exact h2
      · exact lt_trans h2 (h.1 e' he')
    · rw [ordered_cons]
      refine ⟨?_, ih h.2⟩
      intro e' he'
      rcases mem_assign rest k v e' he' with he' | he'
      · rw [he']
        rcases lt_trichotomy k'.data k.data with hlt | heq | hgt
        · exact hlt
        · exact absurd (String.ext heq) h1
        · exact absurd hgt h2
      · exact h.1 e' he'

theorem keys_assign_congr {T U : Type} (k : String) (v : T) (w : U) :
    ∀ (m : StdMap T) (n : StdMap U), m.keys = n.keys →
      (m.assign k v).keys = (n.assign k w).keys := by
  intro m
  induction m with
  | nil =>
    intro n hn
    cases n with
    | nil => rfl
    | cons e rest => simp [keys] at hn
  | cons e rest ih =>
    intro n hn
    cases n with
    | nil => simp [keys] at hn
    | cons e' rest' =>
      obtain ⟨k1, v1⟩ := e
      obtain ⟨k2, v2⟩ := e'
      simp only [keys, List.map_cons, List.cons.injEq] at hn
      obtain ⟨hk, hrest⟩ := hn
      subst hk
      simp only [assign]
      split_ifs with h1 h2
      · simpa [keys] using hrest
      · simpa [keys] using hrest
      · have := ih rest' hrest
        simpa [keys] using this

theorem keys_assign_of_find {T : Type} (m : StdMap T) (k : String) (v x : T)
    (ho : m.Ordered) (h : m.find k = some x) : (m.assign k v).keys = m.keys := by
  induction m with
  | nil => simp [find] at h
  | cons e rest ih =>
    obtain ⟨k', v'⟩ := e
    rw [ordered_cons] at ho
    simp only [find] at h
    simp only [assign]
    split_ifs at h ⊢ with h1 h2
    · simp [keys, h1]
    · exfalso
      have hmem : ∀ (r : StdMap T), r.find k = some x → ∃ e ∈ r, e.1 = k := by
        intro r
        induction r with
        | nil => intro hr; simp [find] at hr
        | cons e2 r2 ih2 =>
          intro hr
          obtain ⟨k2, v2⟩ := e2
          simp only [find] at hr
          split_ifs at hr with h3
          · exact ⟨(k2, v2), List.mem_cons_self _ _, h3⟩
          · obtain ⟨e3, he3, hk3⟩ := ih2 hr
            exact ⟨e3, List.mem_cons_of_mem _ he3, hk3⟩
      obtain ⟨e3, he3, hk3⟩ := hmem rest h
      have hlt := ho.1 e3 he3
      rw [hk3] at hlt
      exact lt_asymm h2 hlt
    · have := ih ho.2 h
      simpa [keys] using this

theorem find_isSome_iff_mem_keys {T : Type} (m : StdMap T) (k : String) :
    (m.find k).isSome = true ↔ k ∈ m.keys := by
  induction m with
  | nil => simp [find, keys]
  | cons e rest ih =>
    obtain ⟨k', v'⟩ := e
    simp only [find, keys, List.map_cons, List.mem_cons]
    split_ifs with h1
    · simp [h1]
    · rw [ih]
      constructor
      · intro h; exact Or.inr h
      · rintro (h | h)
        · exact absurd h.symm h1
        · exact h

theorem find_of_mem {T : Type} (m : StdMap T) (e : String × T) (ho : m.Ordered)
    (h : e ∈ m) : m.find e.1 = some e.2 := by
  induction m with
  | nil => simp at h
  | cons e' rest ih =>
    obtain ⟨k', v'⟩ := e'
    rw [ordered_cons] at ho
    rcases List.mem_cons.mp h with h | h
    · subst h
      simp [find]
    · have hlt := ho.1 e h
      have hne : k' ≠ e.1 := by
        intro hc
        rw [hc] at hlt
        exact lt_irrefl _ hlt
      simp only [find, if_neg hne]
      exact ih ho.2 h

theorem keys_nodup {T : Type} (m : StdMap T) (ho : m.Ordered) : m.keys.Nodup := by
  unfold keys
  rw [List.Nodup, List.pairwise_map]
  refine List.Pairwise.imp ?_ ho
  intro a b hab hc
  rw [hc] at hab
  exact lt_irrefl _ hab

end StdMap

namespace MaintenanceManager

theorem needsMaintenance_congr (s s' : MaintenanceManager) (id : String)
    (h : s'.maintenanceRequired.find id = s.maintenanceRequired.find id) :
    s'.needsMaintenance id = s.needsMaintenance id := by
  simp only [needsMaintenance, h]

theorem addVehicle_find_other (s : MaintenanceManager) (id j : String) (t : Int)
    (hj : j ≠ id) :
    (s.addVehicle id t).maintenanceSchedule.find j = s.maintenanceSchedule.find j ∧
    (s.addVehicle id t).maintenanceRequired.find j = s.maintenanceRequired.find j :=
  ⟨StdMap.find_assign_other _ _ _ _ hj, StdMap.find_assign_other _ _ _ _ hj⟩

theorem updateMileage_find_other (s : MaintenanceManager) (id j : String) (m : Int)
    (hj : j ≠ id) :
    (s.updateMileage id m).maintenanceSchedule.find j = s.maintenanceSchedule.find j ∧
    (s.updateMileage id m).maintenanceRequired.find j = s.maintenanceRequired.find j := by
  cases hs : s.maintenanceSchedule.find id with
  | none => rw [updateMileage_of_not_find s id _ hs]; exact ⟨rfl, rfl⟩
  | some old =>
    rw [updateMileage_of_find s id old _ hs]
    refine ⟨StdMap.find_assign_other _ _ _ _ hj, ?_⟩
    simp only
    split_ifs
    · exact StdMap.find_assign_other _ _ _ _ hj
    · rfl

theorem performMaintenance_find_other (s : MaintenanceManager) (id j : String) (t : Int)
    (hj : j ≠ id) :
    (s.performMaintenance id t).maintenanceSchedule.find j = s.maintenanceSchedule.find j ∧
    (s.performMaintenance id t).maintenanceRequired.find j
      = s.maintenanceRequired.find j := by
  cases hr : s.maintenanceRequired.find id with
  | none => rw [performMaintenance_of_not_find s id _ hr]; exact ⟨rfl, rfl⟩
  | some f =>
    rw [performMaintenance_of_find s id _ f hr]
    exact ⟨StdMap.find_assign_other _ _ _ _ hj, StdMap.find_assign_other _ _ _ _ hj⟩

/-- The due flag agrees with the sign of the stored threshold, for every id that has one. -/
theorem due_iff_step (s : MaintenanceManager) (call : MaintenanceCall)
    (hsane : call.sane = true)
    (hs : ∀ (id : String) (t : Int), s.maintenanceSchedule.find id = some t →
      (s.needsMaintenance id = true ↔ t ≤ 0)) :
    ∀ (id : String) (t : Int), (s.step call).maintenanceSchedule.find id = some t →
      ((s.step call).needsMaintenance id = true ↔ t ≤ 0) := by
  intro id t ht
  cases call with
  | addVehicle id0 t0 =>
    have h0 : 0 < t0 := by simpa [MaintenanceCall.sane] using hsane
    simp only [step] at ht ⊢
    by_cases hid : id = id0
    · subst hid
      have e : (s.addVehicle id t0).maintenanceSchedule.find id = some t0 :=
        StdMap.find_assign_same _ _ _
      rw [e] at ht
      injection ht with ht
      subst ht
      rw [needsMaintenance_of_find _ _ false (StdMap.find_assign_same _ _ _)]
      constructor
      · intro hc; cases hc
      · intro hc; omega
    · rw [(addVehicle_find_other s id0 id t0 hid).1] at ht
      rw [needsMaintenance_congr s _ id (addVehicle_find_other s id0 id t0 hid).2]
      exact hs id t ht
  | updateMileage id0 m =>
    have h0 : 0 ≤ m := by simpa [MaintenanceCall.sane] using hsane
    simp only [step] at ht ⊢
    by_cases hid : id = id0
    · subst hid
      cases hf : s.maintenanceSchedule.find id with
      | none =>
        rw [updateMileage_of_not_find s id m hf] at ht ⊢
        exact hs id t ht
      | some old =>
        have hC := (updateMileage_threshold_and_due s id old m hf)
        rw [hC.1] at ht
        injection ht with ht
        subst ht
        rw [hC.2, hs id old hf]
        constructor
        · rintro (h | h) <;> omega
        · intro h; exact Or.inr h
    · rw [(updateMileage_find_other s id0 id m hid).1] at ht
      rw [needsMaintenance_congr s _ id (updateMileage_find_other s id0 id m hid).2]
      exact hs id t ht
  | performMaintenance id0 t0 =>
    have h0 : 0 < t0 := by simpa [MaintenanceCall.sane] using hsane
    simp only [step] at ht ⊢
    by_cases hid : id = id0
    · subst hid
      cases hr : s.maintenanceRequired.find id with
      | none =>
        rw [performMaintenance_of_not_find s id t0 hr] at ht ⊢
        exact hs id t ht
      | some f =>
        rw [performMaintenance_of_find s id t0 f hr] at ht ⊢
        have e : (s.maintenanceSchedule.assign id t0).find id = some t0 :=
          StdMap.find_assign_same _ _ _
        simp only at ht
        rw [e] at ht
        injection ht with ht
        subst ht
        rw [needsMaintenance_of_find _ _ false (StdMap.find_assign_same _ _ _)]
        constructor
        · intro hc; cases hc
        · intro hc; omega
    · rw [(performMaintenance_find_other s id0 id t0 hid).1] at ht
      rw [needsMaintenance_congr s _ id (performMaintenance_find_other s id0 id t0 hid).2]
      exact hs id t ht

theorem due_iff_run (calls : List MaintenanceCall) : ∀ s : MaintenanceManager,
    calls.all MaintenanceCall.sane = true →
    (∀ (id : String) (t : Int), s.maintenanceSchedule.find id = some t →
      (s.needsMaintenance id = true ↔ t ≤ 0)) →
    ∀ (id : String) (t : Int), (s.run calls).maintenanceSchedule.find id = some t →
      ((s.run calls).needsMaintenance id = true ↔ t ≤ 0) := by
  induction calls with
  | nil => intro s _ hs; exact hs
  | cons call rest ih =>
    intro s hsane hs
    rw [List.all_cons, Bool.and_eq_true] at hsane
    exact ih (s.step call) hsane.2 (due_iff_step s call hsane.1 hs)

/-- Claim C19. Each of `addVehicle(id, t)`, `updateMileage(id, m)` and
`performMaintenance(id, t)` leaves the record of every other id `j` as it was: the entry of
`j` in each of the two maps (so whether it is registered, its threshold and its flag) and
`needsMaintenance(j)`. -/
theorem C19_per_id_isolation (s : MaintenanceManager) (id j : String) (t m : Int)
    (hj : j ≠ id) :
    ((s.addVehicle id t).maintenanceSchedule.find j = s.maintenanceSchedule.find j ∧
      (s.addVehicle id t).maintenanceRequired.find j = s.maintenanceRequired.find j ∧
      (s.addVehicle id t).needsMaintenance j = s.needsMaintenance j) ∧
    ((s.updateMileage id m).maintenanceSchedule.find j = s.maintenanceSchedule.find j ∧
      (s.updateMileage id m).maintenanceRequired.find j = s.maintenanceRequired.find j ∧
      (s.updateMileage id m).needsMaintenance j = s.needsMaintenance j) ∧
    ((s.performMaintenance id t).maintenanceSchedule.find j = s.maintenanceSchedule.find j ∧
      (s.performMaintenance id t).maintenanceRequired.find j = s.maintenanceRequired.find j ∧
      (s.performMaintenance id t).needsMaintenance j = s.needsMaintenance j) := by
  have h1 := addVehicle_find_other s id j t hj
  have h2 := updateMileage_find_other s id j m hj
  have h3 := performMaintenance_find_other s id j t hj
  exact ⟨⟨h1.1, h1.2, needsMaintenance_congr s _ j h1.2⟩,
    ⟨h2.1, h2.2, needsMaintenance_congr s _ j h2.2⟩,
    ⟨h3.1, h3.2, needsMaintenance_congr s _ j h3.2⟩⟩

/-- Witness of C19: with the car, the truck and the bike of `runTests` registered,
`updateMileage(car, 600)` makes the car due, `performMaintenance(car, 800)` clears it, and
`needsMaintenance(bike)` is false throughout. -/
theorem C19_per_id_isolation_witness :
    testBike.getID ≠ testCar.getID ∧
    (testFleet.maintenanceManager.updateMileage testCar.getID 600).needsMaintenance
      testCar.getID = true ∧
    (testFleet.maintenanceManager.updateMileage testCar.getID 600).needsMaintenance
      testBike.getID = false ∧
    ((testFleet.maintenanceManager.updateMileage testCar.getID 600).performMaintenance
      testCar.getID 800).needsMaintenance testBike.getID = false :=
  ⟨by decide, by decide,
   ((C19_per_id_isolation testFleet.maintenanceManager testCar.getID testBike.getID 800 600
      (by decide)).2.1.2.2).trans (by decide),
   ((C19_per_id_isolation (testFleet.maintenanceManager.updateMileage testCar.getID 600)
      testCar.getID testBike.getID 800 600 (by decide)).2.2.2.2).trans (by decide)⟩

/-- Both maps are in key order and have the same keys. -/
theorem aligned_step (s : MaintenanceManager) (call : MaintenanceCall)
    (h : s.maintenanceSchedule.Ordered ∧ s.maintenanceRequired.Ordered ∧
      s.maintenanceSchedule.keys = s.maintenanceRequired.keys) :
    (s.step call).maintenanceSchedule.Ordered ∧ (s.step call).maintenanceRequired.Ordered ∧
      (s.step call).maintenanceSchedule.keys = (s.step call).maintenanceRequired.keys := by
  obtain ⟨hS, hR, hK⟩ := h
  cases call with
  | addVehicle id t =>
    exact ⟨StdMap.ordered_assign _ _ _ hS, StdMap.ordered_assign _ _ _ hR,
      StdMap.keys_assign_congr id t false _ _ hK⟩
  | updateMileage id m =>
    simp only [step]
    cases hf : s.maintenanceSchedule.find id with
    | none => rw [updateMileage_of_not_find s id m hf]; exact ⟨hS, hR, hK⟩
    | some old =>
      rw [updateMileage_of_find s id old m hf]
      refine ⟨StdMap.ordered_assign _ _ _ hS, ?_, ?_⟩
      · simp only
        split_ifs
        · exact StdMap.ordered_assign _ _ _ hR
        · exact hR
      · simp only
        split_ifs
        · exact StdMap.keys_assign_congr id (old - m) true _ _ hK
        · rw [StdMap.keys_assign_of_find _ id (old - m) old hS hf]
          exact hK
  | performMaintenance id t =>
    simp only [step]
    cases hr : s.maintenanceRequired.find id with
    | none => rw [performMaintenance_of_not_find s id t hr]; exact ⟨hS, hR, hK⟩
    | some f =>
      rw [performMaintenance_of_find s id t f hr]
      exact ⟨StdMap.ordered_assign _ _ _ hS, StdMap.ordered_assign _ _ _ hR,
        StdMap.keys_assign_congr id t false _ _ hK⟩

theorem aligned_run (calls : List MaintenanceCall) : ∀ s : MaintenanceManager,
    (s.maintenanceSchedule.Ordered ∧ s.maintenanceRequired.Ordered ∧
      s.maintenanceSchedule.keys = s.maintenanceRequired.keys) →
    ((s.run calls).maintenanceSchedule.Ordered ∧ (s.run calls).maintenanceRequired.Ordered ∧
      (s.run calls).maintenanceSchedule.keys = (s.run calls).maintenanceRequired.keys) := by
  induction calls with
  | nil => intro s h; exact h
  | cons call rest ih => intro s h; exact ih (s.step call) (aligned_step s call h)

theorem aligned_empty :
    empty.maintenanceSchedule.Ordered ∧ empty.maintenanceRequired.Ordered ∧
      empty.maintenanceSchedule.keys = empty.maintenanceRequired.keys := by
  simp [empty, StdMap.Ordered, StdMap.keys]

/-- Claim C20. In every state reached from the empty scheduler by `addVehicle`,
`updateMileage` and `performMaintenance` calls, `maintenanceSchedule` and
`maintenanceRequired` have the same keys, in the same order, so an id has an entry in one iff
it has an entry in the other; `showStatus` prints, between its header and the closing empty
line, one line for each of these ids, each id once, with its due flag. -/
theorem C20_maps_aligned (calls : List MaintenanceCall) :
    (empty.run calls).maintenanceSchedule.keys = (empty.run calls).maintenanceRequired.keys ∧
    (∀ id : String, ((empty.run calls).maintenanceSchedule.find id).isSome
      = ((empty.run calls).maintenanceRequired.find id).isSome) ∧
    (empty.run calls).statusIds = (empty.run calls).maintenanceSchedule.keys ∧
    (empty.run calls).statusIds.Nodup ∧
    (∀ id : String, id ∈ (empty.run calls).statusIds ↔
      ((empty.run calls).maintenanceSchedule.find id).isSome = true ∧
      ((empty.run calls).maintenanceRequired.find id).isSome = true) ∧
    (empty.run calls).showStatus = "--- Maintenance Status ---" ::
      ((empty.run calls).maintenanceSchedule.keys.map
        (fun id => statusLine id ((empty.run calls).needsMaintenance id)) ++ [""]) := by
  obtain ⟨hS, hR, hK⟩ := aligned_run calls empty aligned_empty
  have hsome : ∀ id : String, ((empty.run calls).maintenanceSchedule.find id).isSome
      = ((empty.run calls).maintenanceRequired.find id).isSome := by
    intro id
    rw [Bool.eq_iff_iff, StdMap.find_isSome_iff_mem_keys, StdMap.find_isSome_iff_mem_keys, hK]
  refine ⟨hK, hsome, hK.symm, StdMap.keys_nodup _ hR, ?_, ?_⟩
  · intro id
    rw [← hsome id, and_self, StdMap.find_isSome_iff_mem_keys, statusIds, hK]
  · rw [showStatus, hK, StdMap.keys, List.map_map]
    congr 2
    apply List.map_congr_left
    intro e he
    have hfind := StdMap.find_of_mem _ e hR he
    simp only [Function.comp]
    rw [needsMaintenance_of_find _ _ _ hfind]

end MaintenanceManager

/-! ## `Location::distanceTo` -/

namespace Location

/-- The quantity `a` is half of one minus the cosine of the central angle. -/
theorem haversine_eq (p q : Location ℝ) :
    haversine p q = (1 - (Real.sin (p.latitude * Real.pi / 180)
        * Real.sin (q.latitude * Real.pi / 180)
      + Real.cos (p.latitude * Real.pi / 180) * Real.cos (q.latitude * Real.pi / 180)
        * Real.cos ((q.longitude - p.longitude) * Real.pi / 180))) / 2 := by
  unfold haversine
  simp only
  have h1 : (q.latitude - p.latitude) * Real.pi / 180 / 2 * 2
      = q.latitude * Real.pi / 180 - p.latitude * Real.pi / 180 := by ring
  have e1 : Real.cos (q.latitude * Real.pi / 180 - p.latitude * Real.pi / 180)
      = 1 - 2 * Real.sin ((q.latitude - p.latitude) * Real.pi / 180 / 2) ^ 2 := by
    rw [← h1, mul_comm _ (2 : ℝ), Real.cos_two_mul, Real.cos_sq']
    ring
  have e2 : Real.cos ((q.longitude - p.longitude) * Real.pi / 180)
      = 1 - 2 * Real.sin ((q.longitude - p.longitude) * Real.pi / 180 / 2) ^ 2 := by
    have h2 : (q.longitude - p.longitude) * Real.pi / 180
        = 2 * ((q.longitude - p.longitude) * Real.pi / 180 / 2) := by ring
    rw [h2, Real.cos_two_mul, Real.cos_sq']
    ring_nf
  rw [Real.cos_sub] at e1
  rw [e2]
  nlinarith [e1]

theorem haversine_mem (p q : Location ℝ) : 0 ≤ haversine p q ∧ haversine p q ≤ 1 := by
  rw [haversine_eq]
  set s1 := Real.sin (p.latitude * Real.pi / 180)
  set s2 := Real.sin (q.latitude * Real.pi / 180)
  set c1 := Real.cos (p.latitude * Real.pi / 180)
  set c2 := Real.cos (q.latitude * Real.pi / 180)
  set k := Real.cos ((q.longitude - p.longitude) * Real.pi / 180)
  have h1 : s1 ^ 2 + c1 ^ 2 = 1 := Real.sin_sq_add_cos_sq _
  have h2 : s2 ^ 2 + c2 ^ 2 = 1 := Real.sin_sq_add_cos_sq _
  have hk1 : k ≤ 1 := Real.cos_le_one _
  have hk2 : -1 ≤ k := Real.neg_one_le_cos _
  have hsq : (s1 * s2 + c1 * c2 * k) ^ 2 ≤ 1 := by
    nlinarith [sq_nonneg (s1 * c2 * k - c1 * s2), sq_nonneg c2, sq_nonneg (s1 * c2),
      sq_nonneg k,
      mul_nonneg (mul_nonneg (sq_nonneg c2) (sub_nonneg.mpr hk1)) (by linarith : (0 : ℝ) ≤ 1 + k)]
  have habs := abs_le.mp ((sq_le_one_iff_abs_le_one _).mp hsq)
  constructor <;> linarith [habs.1, habs.2]

theorem atan2_sqrt (a : ℝ) (h0 : 0 ≤ a) (h1 : a ≤ 1) :
    atan2 (Real.sqrt a) (Real.sqrt (1 - a)) = Real.arcsin (Real.sqrt a) := by
  unfold atan2
  have hre : 0 ≤ (⟨Real.sqrt (1 - a), Real.sqrt a⟩ : ℂ).re := Real.sqrt_nonneg _
  rw [Complex.arg_of_re_nonneg hre]
  have habs : Complex.abs ⟨Real.sqrt (1 - a), Real.sqrt a⟩ = 1 := by
    rw [Complex.abs_apply, Complex.normSq_mk, ← sq, ← sq, Real.sq_sqrt (by linarith),
      Real.sq_sqrt h0]
    simp
  rw [habs]
  simp

theorem distanceTo_eq_arcsin (p q : Location ℝ) :
    distanceTo p q = 2 * 6371 * Real.arcsin (Real.sqrt (haversine p q)) := by
  unfold distanceTo
  simp only
  rw [atan2_sqrt _ (haversine_mem p q).1 (haversine_mem p q).2]
  ring

theorem haversine_comm (p q : Location ℝ) : haversine p q = haversine q p := by
  unfold haversine
  simp only
  have h1 : (p.latitude - q.latitude) * Real.pi / 180 / 2
      = -((q.latitude - p.latitude) * Real.pi / 180 / 2) := by ring
  have h2 : (p.longitude - q.longitude) * Real.pi / 180 / 2
      = -((q.longitude - p.longitude) * Real.pi / 180 / 2) := by ring
  rw [h1, h2, Real.sin_neg, Real.sin_neg]
  ring

theorem distanceTo_range (p q : Location ℝ) :
    0 ≤ distanceTo p q ∧ distanceTo p q ≤ 6371 * Real.pi := by
  rw [distanceTo_eq_arcsin]
  have h0 : 0 ≤ Real.arcsin (Real.sqrt (haversine p q)) :=
    Real.arcsin_nonneg.mpr (Real.sqrt_nonneg _)
  have h1 : Real.arcsin (Real.sqrt (haversine p q)) ≤ Real.pi / 2 :=
    Real.arcsin_le_pi_div_two _
  constructor
  · positivity
  · nlinarith

theorem distanceTo_self (p : Location ℝ) : distanceTo p p = 0 := by
  rw [distanceTo_eq_arcsin]
  simp [haversine]

/-! ### Enclosures of the two test distances -/

theorem sin_taylor_bounds (y yl yh : ℝ) (h0 : 0 ≤ yl) (hl : yl ≤ y) (hh : y ≤ yh)
    (h1 : yh ≤ 1) :
    yl - yh ^ 3 / 6 - yh ^ 4 * (5 / 96) ≤ Real.sin y ∧
    Real.sin y ≤ yh - yl ^ 3 / 6 + yh ^ 4 * (5 / 96) := by
  have hy0 : 0 ≤ y := le_trans h0 hl
  have habs : |y| ≤ 1 := by rw [abs_of_nonneg hy0]; linarith
  have hb := abs_le.mp (Real.sin_bound habs)
  rw [abs_of_nonneg hy0] at hb
  have h3l : yl ^ 3 ≤ y ^ 3 := pow_le_pow_left₀ h0 hl 3
  have h3h : y ^ 3 ≤ yh ^ 3 := pow_le_pow_left₀ hy0 hh 3
  have h4h : y ^ 4 ≤ yh ^ 4 := pow_le_pow_left₀ hy0 hh 4
  constructor
  · linarith [hb.1]
  · linarith [hb.2]

theorem cos_of_sin_quarter (x sl sh : ℝ) (hsl : 0 ≤ sl) (h1 : sl ≤ Real.sin (x / 4))
    (h2 : Real.sin (x / 4) ≤ sh) (h3 : 2 * sh ^ 2 ≤ 1) :
    2 * (1 - 2 * sh ^ 2) ^ 2 - 1 ≤ Real.cos x ∧ Real.cos x ≤ 2 * (1 - 2 * sl ^ 2) ^ 2 - 1 := by
  have hs0 : 0 ≤ Real.sin (x / 4) := le_trans hsl h1
  have e1 : Real.cos (x / 2) = 1 - 2 * Real.sin (x / 4) ^ 2 := by
    have hx : x / 2 = 2 * (x / 4) := by ring
    rw [hx, Real.cos_two_mul, Real.cos_sq']
    ring
  have e2 : Real.cos x = 2 * Real.cos (x / 2) ^ 2 - 1 := by
    have hx : x = 2 * (x / 2) := by ring
    rw [hx, Real.cos_two_mul]
    ring_nf
  have hsq1 : sl ^ 2 ≤ Real.sin (x / 4) ^ 2 := pow_le_pow_left₀ hsl h1 2
  have hsq2 : Real.sin (x / 4) ^ 2 ≤ sh ^ 2 := pow_le_pow_left₀ hs0 h2 2
  have hc1 : 1 - 2 * sh ^ 2 ≤ Real.cos (x / 2) := by rw [e1]; linarith
  have hc2 : Real.cos (x / 2) ≤ 1 - 2 * sl ^ 2 := by rw [e1]; linarith
  have hc0 : 0 ≤ 1 - 2 * sh ^ 2 := by linarith
  have hq1 : (1 - 2 * sh ^ 2) ^ 2 ≤ Real.cos (x / 2) ^ 2 := pow_le_pow_left₀ hc0 hc1 2
  have hq2 : Real.cos (x / 2) ^ 2 ≤ (1 - 2 * sl ^ 2) ^ 2 :=
    pow_le_pow_left₀ (le_trans hc0 hc1) hc2 2
  rw [e2]
  constructor <;> linarith

/-- An enclosure of `cos x` from an enclosure of `x`, through the sine of the quarter angle. -/
theorem cos_bounds (x xl xh sl sh cl ch : ℝ) (h0 : 0 ≤ xl) (hl : xl ≤ x) (hh : x ≤ xh)
    (h4 : xh ≤ 4) (hsl0 : 0 ≤ sl)
    (hsl : sl ≤ xl / 4 - (xh / 4) ^ 3 / 6 - (xh / 4) ^ 4 * (5 / 96))
    (hsh : xh / 4 - (xl / 4) ^ 3 / 6 + (xh / 4) ^ 4 * (5 / 96) ≤ sh)
    (hsh1 : 2 * sh ^ 2 ≤ 1)
    (hcl : cl ≤ 2 * (1 - 2 * sh ^ 2) ^ 2 - 1) (hch : 2 * (1 - 2 * sl ^ 2) ^ 2 - 1 ≤ ch) :
    cl ≤ Real.cos x ∧ Real.cos x ≤ ch := by
  have hs := sin_taylor_bounds (x / 4) (xl / 4) (xh / 4) (by linarith) (by linarith)
    (by linarith) (by linarith)
  have hc := cos_of_sin_quarter x sl sh hsl0 (le_trans hsl hs.1) (le_trans hs.2 hsh) hsh1
  exact ⟨le_trans hcl hc.1, le_trans hc.2 hch⟩

theorem haversine_cos_form (p q : Location ℝ) :
    haversine p q = (1 - Real.cos ((p.latitude - q.latitude) * Real.pi / 360) ^ 2) +
      Real.cos (p.latitude * Real.pi / 180) * Real.cos (q.latitude * Real.pi / 180) *
        (1 - Real.cos ((p.longitude - q.longitude) * Real.pi / 360) ^ 2) := by
  unfold haversine
  simp only
  have h1 : (q.latitude - p.latitude) * Real.pi / 180 / 2
      = -((p.latitude - q.latitude) * Real.pi / 360) := by ring
  have h2 : (q.longitude - p.longitude) * Real.pi / 180 / 2
      = -((p.longitude - q.longitude) * Real.pi / 360) := by ring
  rw [h1, h2, ← Real.sin_sq, ← Real.sin_sq, Real.sin_neg, Real.sin_neg]
  ring

theorem arcsin_sqrt_bounds (a lo hi clo chi : ℝ) (ha1 : a ≤ 1)
    (hlo0 : 0 ≤ lo) (hlo1 : lo ≤ 1) (hhi0 : 0 < hi) (hhi1 : hi ≤ 1)
    (hclo0 : 0 ≤ clo) (hclo : clo ≤ Real.cos lo) (hchi : Real.cos hi ≤ chi)
    (h1 : 1 - clo ^ 2 < a) (h2 : a < 1 - chi ^ 2) :
    lo < Real.arcsin (Real.sqrt a) ∧ Real.arcsin (Real.sqrt a) < hi := by
  have hpi : (1 : ℝ) ≤ Real.pi / 2 := by have := Real.pi_gt_three; linarith
  have hs : Real.sqrt a ∈ Set.Icc (-1 : ℝ) 1 :=
    ⟨by have := Real.sqrt_nonneg a; linarith, Real.sqrt_le_one.mpr ha1⟩
  have hcoshi : 0 ≤ Real.cos hi :=
    le_of_lt (Real.cos_pos_of_le_one (by rw [abs_of_pos hhi0]; exact hhi1))
  constructor
  · rw [Real.lt_arcsin_iff_sin_lt ⟨by linarith, by linarith⟩ hs]
    have hsin0 : 0 ≤ Real.sin lo := Real.sin_nonneg_of_nonneg_of_le_pi hlo0 (by linarith)
    rw [Real.lt_sqrt hsin0, Real.sin_sq]
    have hsq : clo ^ 2 ≤ Real.cos lo ^ 2 := pow_le_pow_left₀ hclo0 hclo 2
    linarith
  · rw [Real.arcsin_lt_iff_lt_sin hs ⟨by linarith, by linarith⟩]
    have hsin0 : 0 < Real.sin hi := Real.sin_pos_of_pos_of_le_one hhi0 hhi1
    rw [Real.sqrt_lt' hsin0, Real.sin_sq]
    have hsq : Real.cos hi ^ 2 ≤ chi ^ 2 := pow_le_pow_left₀ hcoshi hchi 2
    linarith

theorem haversine_bounds (a cu_l cu_h cw_l cw_h c1_l c1_h c2_l c2_h cu cw c1 c2 : ℝ)
    (ha : a = (1 - cu ^ 2) + c1 * c2 * (1 - cw ^ 2))
    (hu : cu_l ≤ cu ∧ cu ≤ cu_h) (hw : cw_l ≤ cw ∧ cw ≤ cw_h)
    (h1 : c1_l ≤ c1 ∧ c1 ≤ c1_h) (h2 : c2_l ≤ c2 ∧ c2 ≤ c2_h)
    (hu0 : 0 ≤ cu_l) (hw0 : 0 ≤ cw_l) (h10 : 0 ≤ c1_l) (h20 : 0 ≤ c2_l) (hw1 : cw_h ≤ 1) :
    (1 - cu_h ^ 2) + c1_l * c2_l * (1 - cw_h ^ 2) ≤ a ∧
    a ≤ (1 - cu_l ^ 2) + c1_h * c2_h * (1 - cw_l ^ 2) := by
  have hcu1 : cu ^ 2 ≤ cu_h ^ 2 := pow_le_pow_left₀ (le_trans hu0 hu.1) hu.2 2
  have hcu2 : cu_l ^ 2 ≤ cu ^ 2 := pow_le_pow_left₀ hu0 hu.1 2
  have hcw1 : cw ^ 2 ≤ cw_h ^ 2 := pow_le_pow_left₀ (le_trans hw0 hw.1) hw.2 2
  have hcw2 : cw_l ^ 2 ≤ cw ^ 2 := pow_le_pow_left₀ hw0 hw.1 2
  have hcwh : 0 ≤ 1 - cw_h ^ 2 := by nlinarith [le_trans hw0 (le_trans hw.1 hw.2)]
  have hp1 : c1_l * c2_l ≤ c1 * c2 := mul_le_mul h1.1 h2.1 h20 (le_trans h10 h1.1)
  have hp2 : c1 * c2 ≤ c1_h * c2_h :=
    mul_le_mul h1.2 h2.2 (le_trans h20 h2.1) (le_trans (le_trans h10 h1.1) h1.2)
  have hp0 : 0 ≤ c1_l * c2_l := mul_nonneg h10 h20
  have hq1 : c1_l * c2_l * (1 - cw_h ^ 2) ≤ c1 * c2 * (1 - cw ^ 2) :=
    mul_le_mul hp1 (by linarith) hcwh (le_trans hp0 hp1)
  have hq2 : c1 * c2 * (1 - cw ^ 2) ≤ c1_h * c2_h * (1 - cw_l ^ 2) :=
    mul_le_mul hp2 (by linarith) (by linarith) (le_trans (le_trans hp0 hp1) hp2)
  rw [ha]
  constructor <;> linarith

theorem haversine_loc1_loc2 :
    0.0375 < haversine loc1 loc2 ∧ haversine loc1 loc2 < 0.0377 := by
  have hu := cos_bounds ((55.7558 - 48.8566) * Real.pi / 360)
      0.0602068 0.0602069 0.0150511 0.0150512 0.9981881 0.9981882
      (by norm_num) (by have := Real.pi_gt_d6; linarith) (by have := Real.pi_lt_d6; linarith)
      (by norm_num) (by norm_num) (by norm_num) (by norm_num) (by norm_num) (by norm_num)
      (by norm_num)
  have hw := cos_bounds ((37.6176 - 2.3522) * Real.pi / 360)
      0.3077486 0.3077488 0.0768594 0.0768632 0.9530156 0.9530203
      (by norm_num) (by have := Real.pi_gt_d6; linarith) (by have := Real.pi_lt_d6; linarith)
      (by norm_num) (by norm_num) (by norm_num) (by norm_num) (by norm_num) (by norm_num)
      (by norm_num)
  have h1 := cos_bounds (55.7558 * Real.pi / 180)
      0.9731220 0.9731224 0.2406982 0.2410633 0.5621234 0.5633674
      (by norm_num) (by have := Real.pi_gt_d6; linarith) (by have := Real.pi_lt_d6; linarith)
      (by norm_num) (by norm_num) (by norm_num) (by norm_num) (by norm_num) (by norm_num)
      (by norm_num)
  have h2 := cos_bounds (48.8566 * Real.pi / 180)
      0.8527083 0.8527087 0.2114548 0.2116702 0.6576251 0.6582891
      (by norm_num) (by have := Real.pi_gt_d6; linarith) (by have := Real.pi_lt_d6; linarith)
      (by norm_num) (by norm_num) (by norm_num) (by norm_num) (by norm_num) (by norm_num)
      (by norm_num)
  have hb := haversine_bounds (haversine loc1 loc2) _ _ _ _ _ _ _ _ _ _ _ _
    (haversine_cos_form loc1 loc2) hu hw h1 h2
    (by norm_num) (by norm_num) (by norm_num) (by norm_num) (by norm_num)
  constructor
  · refine lt_of_lt_of_le ?_ hb.1
    norm_num
  · refine lt_of_le_of_lt hb.2 ?_
    norm_num

theorem haversine_loc1_loc3 :
    0.3083 < haversine loc1 loc3 ∧ haversine loc1 loc3 < 0.3097 := by
  have hu := cos_bounds ((55.7558 - 40.7128) * Real.pi / 360)
      0.1312749 0.1312750 0.0328127 0.0328130 0.9913957 0.9913959
      (by norm_num) (by have := Real.pi_gt_d6; linarith) (by have := Real.pi_lt_d6; linarith)
      (by norm_num) (by norm_num) (by norm_num) (by norm_num) (by norm_num) (by norm_num)
      (by norm_num)
  have hw := cos_bounds ((37.6176 - (-74.0060)) * Real.pi / 360)
      0.9740994 0.9740998 0.2409346 0.2413012 0.5613122 0.5625621
      (by norm_num) (by have := Real.pi_gt_d6; linarith) (by have := Real.pi_lt_d6; linarith)
      (by norm_num) (by norm_num) (by norm_num) (by norm_num) (by norm_num) (by norm_num)
      (by norm_num)
  have h1 := cos_bounds (55.7558 * Real.pi / 180)
      0.9731220 0.9731224 0.2406982 0.2410633 0.5621234 0.5633674
      (by norm_num) (by have := Real.pi_gt_d6; linarith) (by have := Real.pi_lt_d6; linarith)
      (by norm_num) (by norm_num) (by norm_num) (by norm_num) (by norm_num) (by norm_num)
      (by norm_num)
  have h2 := cos_bounds (40.7128 * Real.pi / 180)
      0.7105722 0.7105725 0.1766568 0.1767607 0.7578549 0.7581304
      (by norm_num) (by have := Real.pi_gt_d6; linarith) (by have := Real.pi_lt_d6; linarith)
      (by norm_num) (by norm_num) (by norm_num) (by norm_num) (by norm_num) (by norm_num)
      (by norm_num)
  have hb := haversine_bounds (haversine loc1 loc3) _ _ _ _ _ _ _ _ _ _ _ _
    (haversine_cos_form loc1 loc3) hu hw h1 h2
    (by norm_num) (by norm_num) (by norm_num) (by norm_num) (by norm_num)
  constructor
  · refine lt_of_lt_of_le ?_ hb.1
    norm_num
  · refine lt_of_le_of_lt hb.2 ?_
    norm_num

theorem distanceTo_loc1_loc2 : |distanceTo loc1 loc2 - 2486| < 50 := by
  have ha := haversine_loc1_loc2
  have hlo := cos_bounds (2436 / 12742)
      0.1911787 0.1911788 0.0477762 0.0477768 0.9817807 0.9817812
      (by norm_num) (by norm_num) (by norm_num)
      (by norm_num) (by norm_num) (by norm_num) (by norm_num) (by norm_num) (by norm_num)
      (by norm_num)
  have hhi := cos_bounds (2536 / 12742)
      0.1990268 0.1990269 0.0497358 0.0497366 0.9802591 0.9802598
      (by norm_num) (by norm_num) (by norm_num)
      (by norm_num) (by norm_num) (by norm_num) (by norm_num) (by norm_num) (by norm_num)
      (by norm_num)
  have hb := arcsin_sqrt_bounds (haversine loc1 loc2) (2436 / 12742) (2536 / 12742)
    0.9817807 0.9802598 (haversine_mem loc1 loc2).2 (by norm_num) (by norm_num)
    (by norm_num) (by norm_num) (by norm_num) hlo.1 hhi.2
    (lt_trans (by norm_num) ha.1) (lt_trans ha.2 (by norm_num))
  rw [distanceTo_eq_arcsin, abs_lt]
  constructor <;> linarith [hb.1, hb.2]

theorem distanceTo_loc1_loc3 : |distanceTo loc1 loc3 - 7510| < 50 := by
  have ha := haversine_loc1_loc3
  have hlo := cos_bounds (7460 / 12742)
      0.5854653 0.5854654 0.1458198 0.1458677 0.8334027 0.8335098
      (by norm_num) (by norm_num) (by norm_num)
      (by norm_num) (by norm_num) (by norm_num) (by norm_num) (by norm_num) (by norm_num)
      (by norm_num)
  have hhi := cos_bounds (7560 / 12742)
      0.5933134 0.5933135 0.1477592 0.1478097 0.8290369 0.8291512
      (by norm_num) (by norm_num) (by norm_num)
      (by norm_num) (by norm_num) (by norm_num) (by norm_num) (by norm_num) (by norm_num)
      (by norm_num)
  have hb := arcsin_sqrt_bounds (haversine loc1 loc3) (7460 / 12742) (7560 / 12742)
    0.8334027 0.8291512 (haversine_mem loc1 loc3).2 (by norm_num) (by norm_num)
    (by norm_num) (by norm_num) (by norm_num) hlo.1 hhi.2
    (lt_trans (by norm_num) ha.1) (lt_trans ha.2 (by norm_num))
  rw [distanceTo_eq_arcsin, abs_lt]
  constructor <;> linarith [hb.1, hb.2]

/-- Claim C16. Over the reals, for all coordinates `p` and `q` in degrees, the quantity `a`
of `distanceTo` is `sin²((lat2 - lat1)π/360) + cos(lat1 π/180) cos(lat2 π/180)
sin²((lon2 - lon1)π/360)` and lies in `[0, 1]`, and `p.distanceTo(q)` is
`6371 * 2 * atan2(√a, √(1 - a))`, which equals `2 * 6371 * arcsin(√a)`, lies in `[0, 6371 π]`
and is 0 when `p = q`; the distance from Moscow to Paris is within 50 of 2486 and the distance
from Moscow to New York is within 50 of 7510. -/
theorem C16_distanceTo_haversine (p q : Location ℝ) :
    haversine p q = Real.sin ((q.latitude - p.latitude) * Real.pi / 360) ^ 2 +
      Real.cos (p.latitude * Real.pi / 180) * Real.cos (q.latitude * Real.pi / 180) *
        Real.sin ((q.longitude - p.longitude) * Real.pi / 360) ^ 2 ∧
    0 ≤ haversine p q ∧ haversine p q ≤ 1 ∧
    distanceTo p q = 6371 * 2 *
      atan2 (Real.sqrt (haversine p q)) (Real.sqrt (1 - haversine p q)) ∧
    distanceTo p q = 2 * 6371 * Real.arcsin (Real.sqrt (haversine p q)) ∧
    0 ≤ distanceTo p q ∧ distanceTo p q ≤ 6371 * Real.pi ∧
    distanceTo p p = 0 ∧
    |distanceTo loc1 loc2 - 2486| < 50 ∧
    |distanceTo loc1 loc3 - 7510| < 50 := by
  refine ⟨?_, (haversine_mem p q).1, (haversine_mem p q).2, ?_, distanceTo_eq_arcsin p q,
    (distanceTo_range p q).1, (distanceTo_range p q).2, distanceTo_self p,
    distanceTo_loc1_loc2, distanceTo_loc1_loc3⟩
  · unfold haversine
    simp only
    have h1 : (q.latitude - p.latitude) * Real.pi / 180 / 2
        = (q.latitude - p.latitude) * Real.pi / 360 := by ring
    have h2 : (q.longitude - p.longitude) * Real.pi / 180 / 2
        = (q.longitude - p.longitude) * Real.pi / 360 := by ring
    rw [h1, h2]
    ring
  · unfold distanceTo
    simp only
    ring

/-- Claim C17. For all coordinates `a` and `b`, any real latitudes and longitudes in degrees,
`a.distanceTo(b)` equals `b.distanceTo(a)`; the method is `const` and only returns the value. -/
theorem C17_distanceTo_symmetric (a b : Location ℝ) :
    distanceTo a b = distanceTo b a ∧ haversine a b = haversine b a := by
  refine ⟨?_, haversine_comm a b⟩
  unfold distanceTo
  simp only
  rw [haversine_comm]

end Location

/-! ## Rounding to the nearest double -/

namespace Binary64

theorem log_eq (r : ℚ) (e : ℤ) (h1 : (2 : ℚ) ^ e ≤ r) (h2 : r < 2 ^ (e + 1)) :
    Int.log 2 r = e := by
  have hr : 0 < r := lt_of_lt_of_le (by positivity) h1
  have ha : e ≤ Int.log 2 r := by
    rw [← Int.zpow_le_iff_le_log (by norm_num) hr]
    simpa using h1
  have hb : Int.log 2 r < e + 1 := by
    rw [← Int.lt_zpow_iff_log_lt (by norm_num) hr]
    simpa using h2
  omega

theorem roundEven_eq_of_lt (t : ℚ) (n : ℤ) (h : |t - n| < 1 / 2) : roundEven t = n := by
  rw [abs_lt] at h
  unfold roundEven
  by_cases hge : (n : ℚ) ≤ t
  · have hf : ⌊t⌋ = n := by
      rw [Int.floor_eq_iff]
      constructor
      · exact hge
      · linarith [h.2]
    rw [hf, if_pos (by linarith [h.2])]
  · have hf : ⌊t⌋ = n - 1 := by
      rw [Int.floor_eq_iff]
      push_cast
      constructor <;> linarith [h.1]
    rw [hf]
    push_cast
    rw [if_neg (by linarith [h.1]), if_pos (by linarith [h.1])]
    ring

theorem roundEven_tie (t : ℚ) (n : ℤ) (h : t = n + 1 / 2) :
    roundEven t = if n % 2 = 0 then n else n + 1 := by
  have hf : ⌊t⌋ = n := by
    rw [Int.floor_eq_iff]
    constructor <;> linarith
  unfold roundEven
  rw [hf, if_neg (by linarith), if_neg (by linarith)]

theorem toDouble_of (x : ℚ) (e k : ℤ) (h1 : (2 : ℚ) ^ e ≤ |x|) (h2 : |x| < 2 ^ (e + 1))
    (hk : roundEven (x / 2 ^ max (e - 52) (-1074)) = k)
    (hfin : |(k : ℚ) * 2 ^ max (e - 52) (-1074)| < 2 ^ 1024) :
    toDouble x = .finite (k * 2 ^ max (e - 52) (-1074)) := by
  have hq : quantumExp x = max (e - 52) (-1074) := by
    unfold quantumExp
    rw [log_eq _ e h1 h2]
  have hr : roundQ x = k * 2 ^ max (e - 52) (-1074) := by
    unfold roundQ
    rw [hq, hk]
  unfold toDouble
  rw [hr, if_neg (not_le.mpr hfin)]

theorem floor_le_roundEven (t : ℚ) : ⌊t⌋ ≤ roundEven t := by
  unfold roundEven
  split_ifs <;> omega

theorem roundEven_ge (n : ℤ) (t : ℚ) (h : (n : ℚ) ≤ t) : n ≤ roundEven t :=
  le_trans (Int.le_floor.mpr h) (floor_le_roundEven t)

theorem roundEven_le (n : ℤ) (t : ℚ) (h : t ≤ n) : roundEven t ≤ n := by
  have hf : ⌊t⌋ ≤ n := Int.floor_le_iff.mpr (by linarith : t < (n : ℚ) + 1)
  unfold roundEven
  have hfl : (⌊t⌋ : ℚ) ≤ t := Int.floor_le t
  by_cases h1 : t - ⌊t⌋ < 1 / 2
  · rw [if_pos h1]; exact hf
  · have hlt : (⌊t⌋ : ℚ) < n := by linarith
    have hlt' : ⌊t⌋ < n := by exact_mod_cast hlt
    rw [if_neg h1]
    split_ifs <;> omega

theorem quantumExp_mono (a y : ℚ) (ha : 0 < |a|) (h : |a| ≤ |y|) :
    quantumExp a ≤ quantumExp y := by
  unfold quantumExp
  exact max_le_max (by have := Int.log_mono_right (b := 2) ha h; omega) (le_refl _)

theorem two_zpow_pos (s : ℤ) : (0 : ℚ) < 2 ^ s := by positivity

theorem roundQ_nonneg (y : ℚ) (h : 0 ≤ y) : 0 ≤ roundQ y := by
  unfold roundQ
  have h0 : ((0 : ℤ) : ℚ) ≤ y / 2 ^ quantumExp y := by
    simpa using div_nonneg h (le_of_lt (two_zpow_pos _))
  have := roundEven_ge 0 _ h0
  have hc : (0 : ℚ) ≤ (roundEven (y / 2 ^ quantumExp y) : ℚ) := by exact_mod_cast this
  exact mul_nonneg hc (le_of_lt (two_zpow_pos _))

theorem roundQ_nonpos (y : ℚ) (h : y ≤ 0) : roundQ y ≤ 0 := by
  unfold roundQ
  have h0 : y / 2 ^ quantumExp y ≤ ((0 : ℤ) : ℚ) := by
    simpa using div_nonpos_of_nonpos_of_nonneg h (le_of_lt (two_zpow_pos (quantumExp y)))
  have := roundEven_le 0 _ h0
  have hc : (roundEven (y / 2 ^ quantumExp y) : ℚ) ≤ 0 := by exact_mod_cast this
  exact mul_nonpos_of_nonpos_of_nonneg hc (le_of_lt (two_zpow_pos _))

/-- A multiple of the quantum of `y` below `y` stays below the rounded `y`. -/
theorem le_roundQ_of_multiple (a y : ℚ) (n : ℤ) (hn : a = n * 2 ^ quantumExp y) (h : a ≤ y) :
    a ≤ roundQ y := by
  unfold roundQ
  have hp := two_zpow_pos (quantumExp y)
  have hle : (n : ℚ) ≤ y / 2 ^ quantumExp y := by
    rw [le_div_iff₀ hp, ← hn]
    exact h
  have := roundEven_ge n _ hle
  have hc : (n : ℚ) ≤ (roundEven (y / 2 ^ quantumExp y) : ℚ) := by exact_mod_cast this
  rw [hn]
  exact mul_le_mul_of_nonneg_right hc (le_of_lt hp)

theorem multiple_of_quantum (a : ℚ) (s : ℤ) (ha : roundQ a = a) (hs : s ≤ quantumExp a) :
    ∃ n : ℤ, a = n * 2 ^ s := by
  obtain ⟨d, hd⟩ := Int.eq_ofNat_of_zero_le (sub_nonneg.mpr hs)
  refine ⟨roundEven (a / 2 ^ quantumExp a) * 2 ^ d, ?_⟩
  have e : quantumExp a = s + d := by omega
  have h2 : (2 : ℚ) ^ quantumExp a = 2 ^ d * 2 ^ s := by
    rw [e, zpow_add₀ (by norm_num), zpow_natCast]
    ring
  conv_lhs => rw [← ha]
  unfold roundQ
  rw [h2]
  push_cast
  ring

theorem le_roundQ (a y : ℚ) (ha : roundQ a = a) (h : a ≤ y) : a ≤ roundQ y := by
  by_cases hy : y < 0
  · have ha0 : a < 0 := lt_of_le_of_lt h hy
    have habs : |y| ≤ |a| := by rw [abs_of_neg hy, abs_of_neg ha0]; linarith
    have hs := quantumExp_mono y a (abs_pos.mpr (ne_of_lt hy)) habs
    obtain ⟨n, hn⟩ := multiple_of_quantum a _ ha hs
    exact le_roundQ_of_multiple a y n hn h
  · push_neg at hy
    by_cases ha0 : a ≤ 0
    · exact le_trans ha0 (roundQ_nonneg y hy)
    · push_neg at ha0
      have hy0 : 0 < y := lt_of_lt_of_le ha0 h
      by_cases hs : quantumExp y ≤ quantumExp a
      · obtain ⟨n, hn⟩ := multiple_of_quantum a _ ha hs
        exact le_roundQ_of_multiple a y n hn h
      · push_neg at hs
        have hsa : -1074 ≤ quantumExp a := le_max_right _ _
        have hey : quantumExp y = Int.log 2 |y| - 52 := by
          unfold quantumExp at hs ⊢
          rcases max_cases (Int.log 2 |y| - 52) (-1074) with hc | hc
          · exact hc.1
          · rw [hc.1] at hs; unfold quantumExp at hsa; omega
        have hea : Int.log 2 |a| - 52 ≤ quantumExp a := le_max_left _ _
        have hlog : Int.log 2 |a| + 1 ≤ Int.log 2 |y| := by omega
        have h1 : a < 2 ^ (Int.log 2 |a| + 1) := by
          have := Int.lt_zpow_succ_log_self (b := 2) (by norm_num) |a|
          rw [abs_of_pos ha0] at this ⊢
          simpa using this
        have h2 : (2 : ℚ) ^ (Int.log 2 |a| + 1) ≤ 2 ^ Int.log 2 |y| :=
          zpow_le_zpow_right₀ (by norm_num) hlog
        have h3 : (2 : ℚ) ^ Int.log 2 |y| ≤ y := by
          have := Int.zpow_log_le_self (b := 2) (r := |y|) (by norm_num) (abs_pos.mpr (ne_of_gt hy0))
          rw [abs_of_pos hy0] at this ⊢
          simpa using this
        have h4 : (2 : ℚ) ^ Int.log 2 |y| = ((2 ^ 52 : ℤ) : ℚ) * 2 ^ quantumExp y := by
          rw [hey]
          have : Int.log 2 |y| = 52 + (Int.log 2 |y| - 52) := by ring
          conv_lhs => rw [this, zpow_add₀ (by norm_num : (2 : ℚ) ≠ 0)]
          norm_num
        have h5 := le_roundQ_of_multiple _ y (2 ^ 52) h4 h3
        linarith

theorem le_toDouble (a y : ℚ) (ha : toDouble a = .finite a) (h : a ≤ y) :
    toDouble y = .inf false ∨ ∃ r, toDouble y = .finite r ∧ a ≤ r := by
  have hra : roundQ a = a ∧ |a| < 2 ^ 1024 := by
    unfold toDouble at ha
    split_ifs at ha with hc
    · injection ha with ha
      rw [ha] at hc
      exact ⟨ha, not_le.mp hc⟩
  have hle := le_roundQ a y hra.1 h
  unfold toDouble
  split_ifs with hc
  · left
    by_cases hy : y < 0
    · exfalso
      have hneg := roundQ_nonpos y (le_of_lt hy)
      rw [abs_of_nonpos hneg] at hc
      have := abs_lt.mp hra.2
      linarith
    · simp [hy]
  · right
    exact ⟨_, rfl, hle⟩

theorem roundQ_of_multiple (x : ℚ) (n : ℤ) (hn : x = n * 2 ^ quantumExp x) : roundQ x = x := by
  unfold roundQ
  have hp := two_zpow_pos (quantumExp x)
  have hq : x / 2 ^ quantumExp x = n := by
    rw [div_eq_iff (ne_of_gt hp)]
    exact hn
  rw [hq, roundEven_eq_of_lt (n : ℚ) n (by norm_num)]
  exact hn.symm

/-- Every `m * 2^e` with a mantissa `m` of at most 53 bits, an exponent `e ≥ -1074` and a
magnitude below `2^1024` is a double. -/
theorem isDouble_of_mantissa (m e : ℤ) (hm : |m| < 2 ^ 53) (he : -1074 ≤ e)
    (hfin : |(m : ℚ) * 2 ^ e| < 2 ^ 1024) : isDouble (.finite (m * 2 ^ e)) := by
  show toDouble (m * 2 ^ e) = .finite (m * 2 ^ e)
  have hr : roundQ ((m : ℚ) * 2 ^ e) = m * 2 ^ e := by
    by_cases h0 : m = 0
    · subst h0
      unfold roundQ
      rw [roundEven_eq_of_lt _ 0 (by norm_num)]
      simp
    · have hpos : (0 : ℚ) < |(m : ℚ) * 2 ^ e| := by
        rw [abs_pos]
        exact mul_ne_zero (by exact_mod_cast h0) (ne_of_gt (two_zpow_pos e))
      have hlt : |(m : ℚ) * 2 ^ e| < 2 ^ (53 + e) := by
        rw [abs_mul, abs_of_pos (two_zpow_pos e), zpow_add₀ (by norm_num : (2 : ℚ) ≠ 0)]
        have hm' : |(m : ℚ)| < 2 ^ (53 : ℤ) := by
          have h := (Int.cast_lt (R := ℚ)).mpr hm
          rw [Int.cast_abs] at h
          norm_num at h ⊢
          exact h
        exact mul_lt_mul_of_pos_right hm' (two_zpow_pos e)
      have hlog : Int.log 2 |(m : ℚ) * 2 ^ e| < 53 + e := by
        rw [← Int.lt_zpow_iff_log_lt (by norm_num) hpos]
        simpa using hlt
      have hs : quantumExp ((m : ℚ) * 2 ^ e) ≤ e := by
        unfold quantumExp
        exact max_le (by omega) he
      obtain ⟨d, hd⟩ := Int.eq_ofNat_of_zero_le (sub_nonneg.mpr hs)
      have he' : e = quantumExp ((m : ℚ) * 2 ^ e) + d := by omega
      apply roundQ_of_multiple _ (m * 2 ^ d)
      have h2 : (2 : ℚ) ^ e = 2 ^ d * 2 ^ quantumExp ((m : ℚ) * 2 ^ e) := by
        conv_lhs => rw [he', zpow_add₀ (by norm_num : (2 : ℚ) ≠ 0), zpow_natCast]
        ring
      conv_lhs => rw [h2]
      push_cast
      ring
  unfold toDouble
  rw [hr, if_neg (not_le.mpr hfin)]

theorem isDouble_natCast (n : ℕ) (hn : n < 2 ^ 53) : isDouble (.finite n) := by
  have h := isDouble_of_mantissa n 0 (by
    rw [abs_of_nonneg (Int.natCast_nonneg n)]
    exact_mod_cast hn) (by norm_num) (by
    rw [zpow_zero, mul_one]
    have h1 : ((n : ℤ) : ℚ) = (n : ℚ) := by norm_cast
    rw [h1, abs_of_nonneg (Nat.cast_nonneg n)]
    have h2 : (n : ℚ) < 2 ^ 53 := by exact_mod_cast hn
    exact lt_trans h2 (by norm_num))
  simpa using h

/-! ## Comparison of doubles -/

theorem lt_self (x : DoubleValue) : lt x x = false := by
  cases x <;> simp [lt]

theorem lt_antisymm (x y : DoubleValue) (h : lt x y = true) : lt y x = false := by
  cases x <;> cases y <;> simp_all [lt]
  exact le_of_lt h

theorem lt_transitive (x y z : DoubleValue) (h1 : lt x y = true) (h2 : lt y z = true) :
    lt x z = true := by
  cases x <;> cases y <;> cases z <;> simp_all [lt]
  exact h1.trans h2

theorem not_lt_iff_le (x y : DoubleValue) (hx : x ≠ .nan) (hy : y ≠ .nan) :
    lt y x = false ↔ le x y = true := by
  cases x <;> cases y <;> simp_all [lt, le]
  rename_i a b
  cases a <;> cases b <;> simp

theorem le_antisymm_of (x y : DoubleValue) (h1 : le x y = true) (h2 : le y x = true) :
    x = y := by
  cases x <;> cases y <;> simp_all [le]
  · exact le_antisymm h1 h2
  · rename_i a b
    cases a <;> cases b <;> simp_all

theorem le_transitive (x y z : DoubleValue) (h1 : le x y = true) (h2 : le y z = true) :
    le x z = true := by
  cases x <;> cases y <;> cases z <;> simp_all [le]
  · exact h1.trans h2
  · rename_i a b c
    cases a <;> cases b <;> cases c <;> simp_all

theorem le_total_of (x y : DoubleValue) (hx : x ≠ .nan) (hy : y ≠ .nan) :
    le x y = true ∨ le y x = true := by
  rcases x with p | a | _ <;> rcases y with q | b | _
  · simpa [le] using le_total p q
  · cases b <;> simp [le]
  · exact absurd rfl hy
  · cases a <;> simp [le]
  · cases a <;> cases b <;> simp [le]
  · exact absurd rfl hy
  · exact absurd rfl hx
  · exact absurd rfl hx
  · exact absurd rfl hx

theorem le_self (x : DoubleValue) (hx : x ≠ .nan) : le x x = true := by
  cases x <;> simp_all [le]

/-- Two doubles, neither NaN, are incomparable exactly when they are equal. -/
theorem incomparable_iff_eq (x y : DoubleValue) (hx : x ≠ .nan) (hy : y ≠ .nan) :
    (lt x y = false ∧ lt y x = false) ↔ x = y := by
  rw [not_lt_iff_le y x hy hx, not_lt_iff_le x y hx hy]
  constructor
  · rintro ⟨h1, h2⟩
    exact le_antisymm_of x y h2 h1
  · intro h
    subst h
    exact ⟨le_self x hx, le_self x hx⟩

theorem lt_nan_left (y : DoubleValue) : lt .nan y = false := by
  cases y <;> rfl

theorem lt_nan_right (x : DoubleValue) : lt x .nan = false := by
  cases x <;> rfl

/-! ## `Vehicle`: mileage, ordering and usage efficiency on doubles -/

namespace Vehicle

theorem operator_plus_eq_of_pos (v : Vehicle) (delta : DoubleValue)
    (h : lt (.finite 0) delta = true) :
    v.operator_plus_eq delta = { v with mileage := add v.mileage delta } := by
  unfold operator_plus_eq
  rw [if_pos h]

theorem operator_plus_eq_of_not_pos (v : Vehicle) (delta : DoubleValue)
    (h : lt (.finite 0) delta = false) : v.operator_plus_eq delta = v := by
  unfold operator_plus_eq
  rw [if_neg (by rw [h]; exact Bool.false_ne_true)]

/-- Claim C12 as stated fails: a vehicle of mileage `2^53` (a double) keeps that mileage
after `+= 1`: the sum `2^53 + 1` is not a double and rounds back to `2^53`, so the mileage is
neither the old mileage plus the delta nor strictly greater than before. -/
theorem C12_small_delta_lost :
    isDouble (.finite (2 ^ 53)) ∧ isDouble (.finite 1) ∧
    lt (.finite 0) (.finite 1) = true ∧
    ((create "Toyota" "Camry" (.finite (2 ^ 53)) (.finite 12) 1).1.operator_plus_eq
      (.finite 1)).mileage = .finite (2 ^ 53) ∧
    ((create "Toyota" "Camry" (.finite (2 ^ 53)) (.finite 12) 1).1.operator_plus_eq
      (.finite 1)).mileage ≠ .finite (2 ^ 53 + 1) ∧
    lt (.finite (2 ^ 53)) ((create "Toyota" "Camry" (.finite (2 ^ 53)) (.finite 12)
      1).1.operator_plus_eq (.finite 1)).mileage = false := by
  have hsum : toDouble (2 ^ 53 + 1) = .finite (2 ^ 53) := by
    have h := toDouble_of (2 ^ 53 + 1) 53 (2 ^ 52) (by norm_num [abs_of_pos])
      (by norm_num [abs_of_pos])
      (by rw [roundEven_tie _ (2 ^ 52) (by norm_num)]; norm_num)
      (by norm_num [abs_of_pos])
    rw [h]
    norm_num
  have hm : ((create "Toyota" "Camry" (.finite (2 ^ 53)) (.finite 12) 1).1.operator_plus_eq
      (.finite 1)).mileage = .finite (2 ^ 53) := by
    rw [operator_plus_eq_of_pos _ _ (by simp [lt])]
    simp only [create, add]
    exact hsum
  refine ⟨?_, ?_, by simp [lt], hm, ?_, ?_⟩
  · have h := isDouble_of_mantissa 1 53 (by norm_num) (by norm_num) (by norm_num [abs_of_pos])
    norm_num at h ⊢
    exact h
  · have h := isDouble_natCast 1 (by norm_num)
    simpa using h
  · rw [hm]
    intro hc
    injection hc with hc
    norm_num at hc
  · rw [hm]
    simp [lt]

/-- Claim C12, amended. `operator+=` returns the vehicle as it was when the delta is not
greater than zero (negative, zero or NaN) and otherwise replaces the mileage by the double sum
of the old mileage and the delta, leaving the id, the description, the fuel efficiency and the
availability as they were. For a finite mileage `m` and a finite delta `d > 0` the new mileage
is `m + d` rounded to the nearest double: it is never less than `m`, and it is exactly `m + d`,
hence strictly greater than `m`, whenever `m + d` is a double. -/
theorem C12_mileage_accumulation (v : Vehicle) (delta : DoubleValue) (m d : ℚ) :
    (lt (.finite 0) delta = false → v.operator_plus_eq delta = v) ∧
    (lt (.finite 0) delta = true →
      (v.operator_plus_eq delta).mileage = add v.mileage delta) ∧
    (v.operator_plus_eq delta).vehicle_id = v.vehicle_id ∧
    (v.operator_plus_eq delta).make_and_model = v.make_and_model ∧
    (v.operator_plus_eq delta).fuel_efficiency = v.fuel_efficiency ∧
    (v.operator_plus_eq delta).available = v.available ∧
    (delta = .finite d → d ≤ 0 → v.operator_plus_eq delta = v) ∧
    (v.mileage = .finite m → delta = .finite d → 0 < d → isDouble (.finite m) →
      (v.operator_plus_eq delta).mileage = toDouble (m + d) ∧
      lt (v.operator_plus_eq delta).mileage (.finite m) = false ∧
      le (.finite m) (v.operator_plus_eq delta).mileage = true ∧
      (isDouble (.finite (m + d)) →
        (v.operator_plus_eq delta).mileage = .finite (m + d) ∧
        lt (.finite m) (v.operator_plus_eq delta).mileage = true)) := by
  have hfields : (v.operator_plus_eq delta).vehicle_id = v.vehicle_id ∧
      (v.operator_plus_eq delta).make_and_model = v.make_and_model ∧
      (v.operator_plus_eq delta).fuel_efficiency = v.fuel_efficiency ∧
      (v.operator_plus_eq delta).available = v.available := by
    unfold operator_plus_eq
    split_ifs <;> exact ⟨rfl, rfl, rfl, rfl⟩
  refine ⟨operator_plus_eq_of_not_pos v delta, ?_, hfields.1, hfields.2.1, hfields.2.2.1,
    hfields.2.2.2, ?_, ?_⟩
  · intro h
    rw [operator_plus_eq_of_pos v delta h]
  · intro hd hle
    apply operator_plus_eq_of_not_pos
    rw [hd]
    simp [lt, hle]
  · intro hm hd hpos hrep
    have hlt : lt (.finite 0) delta = true := by rw [hd]; simp [lt, hpos]
    have hmil : (v.operator_plus_eq delta).mileage = toDouble (m + d) := by
      rw [operator_plus_eq_of_pos v delta hlt]
      simp only [hm, hd, add]
    rw [hmil]
    refine ⟨rfl, ?_, ?_, ?_⟩
    · rcases le_toDouble m (m + d) hrep (by linarith) with h | ⟨r, h, hr⟩
      · rw [h]; simp [lt]
      · rw [h]; simp [lt, hr]
    · rcases le_toDouble m (m + d) hrep (by linarith) with h | ⟨r, h, hr⟩
      · rw [h]; simp [le]
      · rw [h]; simp [le, hr]
    · intro hsum
      have hsum' : toDouble (m + d) = .finite (m + d) := hsum
      rw [hsum']
      exact ⟨rfl, by simp [lt, hpos]⟩

/-- Witness of C12 (amended): `*car += 500` takes the mileage of the `car` of `runTests` from
12000 to exactly 12500, which is strictly greater, and `*car += -500` leaves the car as it
was. -/
theorem C12_mileage_accumulation_witness :
    car.mileage = .finite 12000 ∧ isDouble (.finite 12000) ∧
    isDouble (.finite (12000 + 500)) ∧
    (car.operator_plus_eq (.finite 500)).mileage = .finite (12000 + 500) ∧
    lt (.finite 12000) (car.operator_plus_eq (.finite 500)).mileage = true ∧
    car.operator_plus_eq (.finite (-500)) = car :=
  have h12000 : isDouble (.finite 12000) := by
    have h := isDouble_natCast 12000 (by norm_num)
    simpa using h
  have h12500 : isDouble (.finite (12000 + 500)) := by
    have h := isDouble_natCast 12500 (by norm_num)
    norm_num at h ⊢
    exact h
  ⟨rfl, h12000, h12500,
   (((C12_mileage_accumulation car (.finite 500) 12000 500).2.2.2.2.2.2.2 rfl rfl
      (by norm_num) h12000).2.2.2 h12500).1,
   (((C12_mileage_accumulation car (.finite 500) 12000 500).2.2.2.2.2.2.2 rfl rfl
      (by norm_num) h12000).2.2.2 h12500).2,
   (C12_mileage_accumulation car (.finite (-500)) 12000 (-500)).2.2.2.2.2.2.1 rfl
      (by norm_num)⟩

/-- In a list without NaN mileage, an arrangement in which no vehicle is less than an earlier
one has non-decreasing mileages. -/
theorem pairwise_le_of_sorted (l : List Vehicle) (hl : ∀ v ∈ l, v.mileage ≠ .nan)
    (hs : l.Pairwise (fun u w => w.operator_lt u = false)) :
    l.Pairwise (fun u w => le u.mileage w.mileage = true) := by
  refine List.Pairwise.imp_of_mem ?_ hs
  intro u w hu hw h
  exact (not_lt_iff_le u.mileage w.mileage (hl u hu) (hl w hw)).mp h

theorem exists_sorted_perm (l : List Vehicle) (hl : ∀ v ∈ l, v.mileage ≠ .nan) :
    ∃ l' : List Vehicle, l'.Perm l ∧ l'.Pairwise (fun u w => w.operator_lt u = false) := by
  have hsorted := @List.sorted_insertionSort Vehicle
    (fun u w => le u.mileage w.mileage = true ∨ u.mileage = .nan) _
    ⟨fun u w => by
      by_cases hu : u.mileage = .nan
      · exact Or.inl (Or.inr hu)
      · by_cases hw : w.mileage = .nan
        · exact Or.inr (Or.inr hw)
        · rcases le_total_of u.mileage w.mileage hu hw with h | h
          · exact Or.inl (Or.inl h)
          · exact Or.inr (Or.inl h)⟩
    ⟨fun u w z huw hwz => by
      rcases huw with huw | hu
      · rcases hwz with hwz | hw
        · exact Or.inl (le_transitive _ _ _ huw hwz)
        · rw [hw] at huw
          cases hm : u.mileage <;> rw [hm] at huw <;> simp [le] at huw
      · exact Or.inr hu⟩ l
  have hperm := List.perm_insertionSort
    (fun u w : Vehicle => le u.mileage w.mileage = true ∨ u.mileage = .nan) l
  refine ⟨_, hperm, ?_⟩
  refine List.Pairwise.imp_of_mem ?_ hsorted
  intro u w hu hw h
  have hu' := hl u (hperm.mem_iff.mp hu)
  have hw' := hl w (hperm.mem_iff.mp hw)
  rcases h with h | h
  · exact (not_lt_iff_le u.mileage w.mileage hu' hw').mpr h
  · exact absurd h hu'

theorem sorted_mileages_unique (l l₁ l₂ : List Vehicle) (hl : ∀ v ∈ l, v.mileage ≠ .nan)
    (h1 : l₁.Perm l) (h2 : l₂.Perm l)
    (hs1 : l₁.Pairwise (fun u w => w.operator_lt u = false))
    (hs2 : l₂.Pairwise (fun u w => w.operator_lt u = false)) :
    l₁.map (fun v => v.mileage) = l₂.map (fun v => v.mileage) := by
  have hl1 : ∀ v ∈ l₁, v.mileage ≠ .nan := fun v hv => hl v (h1.mem_iff.mp hv)
  have hl2 : ∀ v ∈ l₂, v.mileage ≠ .nan := fun v hv => hl v (h2.mem_iff.mp hv)
  have hp : (l₁.map (fun v => v.mileage)).Perm (l₂.map (fun v => v.mileage)) :=
    (h1.trans h2.symm).map _
  have hq1 : (l₁.map (fun v => v.mileage)).Sorted (fun x y => le x y = true) :=
    List.pairwise_map.mpr (pairwise_le_of_sorted l₁ hl1 hs1)
  have hq2 : (l₂.map (fun v => v.mileage)).Sorted (fun x y => le x y = true) :=
    List.pairwise_map.mpr (pairwise_le_of_sorted l₂ hl2 hs2)
  exact @List.eq_of_perm_of_sorted DoubleValue (fun x y => le x y = true)
    ⟨fun x y hxy hyx => le_antisymm_of x y hxy hyx⟩ _ _ hp hq1 hq2

/-- Claim C13 as stated fails: with a NaN mileage, which the constructor accepts, the `car`
(12000) and the vehicle of NaN mileage are incomparable although their mileages differ, and
incomparability is not transitive: the `car` and the NaN vehicle are incomparable, the NaN
vehicle and the `bike` (15000) are incomparable, and the `car` is less than the `bike`. -/
theorem C13_nan_mileage_breaks_order :
    car.operator_lt (create "Honda" "Civic" .nan (.finite 15) 4).1 = false ∧
    (create "Honda" "Civic" .nan (.finite 15) 4).1.operator_lt car = false ∧
    car.mileage ≠ (create "Honda" "Civic" .nan (.finite 15) 4).1.mileage ∧
    (create "Honda" "Civic" .nan (.finite 15) 4).1.operator_lt bike = false ∧
    bike.operator_lt (create "Honda" "Civic" .nan (.finite 15) 4).1 = false ∧
    car.operator_lt bike = true := by
  decide

/-- Claim C13, amended. For all vehicles, `a < b` is the comparison of the two mileages as
doubles (for finite mileages: the mileage of `a` is strictly less than that of `b`; false when
either is NaN); the relation is irreflexive, asymmetric and transitive; two vehicles neither of
whose mileages is NaN are incomparable exactly when their mileages are equal, and
incomparability is transitive through a vehicle whose mileage is not NaN. So a list of vehicles
without NaN mileage has a permutation in which no vehicle is less than an earlier one, every
such permutation has non-decreasing mileages, and all of them have the same sequence of
mileages; for the mileages 12000, 80000, 15000 it is 12000, 15000, 80000. -/
theorem C13_ordering_by_mileage (a b c : Vehicle) (l l₁ l₂ : List Vehicle) (x y : ℚ) :
    a.operator_lt b = lt a.mileage b.mileage ∧
    (a.mileage = .finite x → b.mileage = .finite y → (a.operator_lt b = true ↔ x < y)) ∧
    a.operator_lt a = false ∧
    (a.operator_lt b = true → b.operator_lt a = false) ∧
    (a.operator_lt b = true → b.operator_lt c = true → a.operator_lt c = true) ∧
    (a.mileage ≠ .nan → b.mileage ≠ .nan →
      ((a.operator_lt b = false ∧ b.operator_lt a = false) ↔ a.mileage = b.mileage)) ∧
    (b.mileage ≠ .nan → a.operator_lt b = false ∧ b.operator_lt a = false →
      b.operator_lt c = false ∧ c.operator_lt b = false →
      a.operator_lt c = false ∧ c.operator_lt a = false) ∧
    ((∀ v ∈ l, v.mileage ≠ .nan) →
      (∃ l' : List Vehicle, l'.Perm l ∧ l'.Pairwise (fun u w => w.operator_lt u = false)) ∧
      (l₁.Perm l → l₁.Pairwise (fun u w => w.operator_lt u = false) →
        l₁.Pairwise (fun u w => le u.mileage w.mileage = true)) ∧
      (l₁.Perm l → l₂.Perm l → l₁.Pairwise (fun u w => w.operator_lt u = false) →
        l₂.Pairwise (fun u w => w.operator_lt u = false) →
        l₁.map (fun v => v.mileage) = l₂.map (fun v => v.mileage))) ∧
    (l₁.Perm [car, truck, bike] → l₁.Pairwise (fun u w => w.operator_lt u = false) →
      l₁.map (fun v => v.mileage) = [.finite 12000, .finite 15000, .finite 80000]) := by
  refine ⟨rfl, ?_, lt_self _, lt_antisymm _ _, lt_transitive _ _ _, ?_, ?_, ?_, ?_⟩
  · intro ha hb
    simp [operator_lt, ha, hb, lt]
  · intro ha hb
    exact incomparable_iff_eq _ _ ha hb
  · intro hb hab hbc
    by_cases ha : a.mileage = .nan
    · simp only [operator_lt, ha, lt_nan_left, lt_nan_right, and_self]
    · have hab' := (incomparable_iff_eq _ _ ha hb).mp hab
      simp only [operator_lt] at hbc ⊢
      rw [hab']
      exact hbc
  · intro hl
    refine ⟨exists_sorted_perm l hl, ?_, ?_⟩
    · intro h1 hs1
      exact pairwise_le_of_sorted l₁ (fun v hv => hl v (h1.mem_iff.mp hv)) hs1
    · intro h1 h2 hs1 hs2
      exact sorted_mileages_unique l l₁ l₂ hl h1 h2 hs1 hs2
  · intro h1 hs1
    have h := sorted_mileages_unique [car, truck, bike] l₁ [car, bike, truck]
      (by decide) h1 (by decide) hs1 (by decide)
    rw [h]
    rfl

/-- Witness of C13 (amended): the `car` (12000) is less than the `bike` (15000), the `bike`
is less than the `truck` (80000), hence the `car` is less than the `truck`; and the arrangement
car, bike, truck of the three has the mileages 12000, 15000, 80000. -/
theorem C13_ordering_by_mileage_witness :
    car.operator_lt bike = true ∧ bike.operator_lt truck = true ∧
    car.operator_lt truck = true ∧
    [car, bike, truck].map (fun v => v.mileage)
      = [.finite 12000, .finite 15000, .finite 80000] :=
  ⟨by decide, by decide,
   (C13_ordering_by_mileage car bike truck [] [car, bike, truck] [] 0 0).2.2.2.2.1
     (by decide) (by decide),
   (C13_ordering_by_mileage car bike truck [] [car, bike, truck] [] 0 0).2.2.2.2.2.2.2.2
     (by decide) (by decide)⟩

theorem toDouble_ne_nan (x : ℚ) : toDouble x ≠ .nan := by
  unfold toDouble
  split_ifs <;> intro h <;> cases h

theorem analyzeUsageEfficiency_finite (v : Vehicle) (m fe : ℚ) (hm : v.mileage = .finite m)
    (hfe : v.fuel_efficiency = .finite fe) (h0 : fe ≠ 0) :
    v.analyzeUsageEfficiency = toDouble (m / fe) := by
  simp only [analyzeUsageEfficiency, hm, hfe, div, if_neg h0]

theorem toDouble_12500_div_12 :
    toDouble (12500 / 12) = .finite (4581298449066667 / 4398046511104) := by
  have h := toDouble_of (12500 / 12) 10 4581298449066667 (by norm_num [abs_of_pos])
    (by norm_num [abs_of_pos])
    (by apply roundEven_eq_of_lt; norm_num [abs_lt])
    (by norm_num [abs_of_pos])
  rw [h]
  norm_num

theorem toDouble_overflow : toDouble (2 ^ 1023 / 2 ^ (-1022 : ℤ)) = .inf false := by
  have hx : (2 : ℚ) ^ 1023 / 2 ^ (-1022 : ℤ) = 2 ^ (2045 : ℤ) := by
    rw [div_eq_iff (ne_of_gt (two_zpow_pos _)), ← zpow_natCast, ← zpow_add₀ (by norm_num)]
    norm_num
  rw [hx]
  have hq : quantumExp ((2 : ℚ) ^ (2045 : ℤ)) = 1993 := by
    unfold quantumExp
    rw [abs_of_pos (two_zpow_pos _), log_eq _ 2045 (le_refl _)
      (zpow_lt_zpow_right₀ (by norm_num) (by norm_num))]
    norm_num
  have hr : roundQ ((2 : ℚ) ^ (2045 : ℤ)) = 2 ^ (2045 : ℤ) := by
    apply roundQ_of_multiple _ (2 ^ 52)
    rw [hq]
    have h52 : (((2 : ℤ) ^ 52 : ℤ) : ℚ) = (2 : ℚ) ^ (52 : ℤ) := by norm_num
    rw [h52, ← zpow_add₀ (by norm_num)]
    norm_num
  unfold toDouble
  rw [hr, abs_of_pos (two_zpow_pos _), if_pos (by
    rw [← zpow_natCast]
    exact zpow_le_zpow_right₀ (by norm_num) (by norm_num))]
  have hneg : ¬ ((2 : ℚ) ^ (2045 : ℤ) < 0) := not_lt.mpr (le_of_lt (two_zpow_pos _))
  simp [hneg]

/-- Claim C14 as stated fails: after `*car += 500` the `car` of `runTests` reports the double
nearest to `12500/12`, which is `4581298449066667 / 2^42` and not `12500/12`; and a vehicle of
mileage `2^1023` and fuel efficiency `2^-1022`, both doubles and the second not zero, reports
`+Infinity`, not a quotient. -/
theorem C14_quotient_is_rounded :
    (car.operator_plus_eq (.finite 500)).analyzeUsageEfficiency
      = .finite (4581298449066667 / 4398046511104) ∧
    (car.operator_plus_eq (.finite 500)).analyzeUsageEfficiency ≠ .finite (12500 / 12) ∧
    isDouble (.finite (2 ^ 1023)) ∧ isDouble (.finite (2 ^ (-1022 : ℤ))) ∧
    (create "Toyota" "Camry" (.finite (2 ^ 1023)) (.finite (2 ^ (-1022 : ℤ)))
      1).1.analyzeUsageEfficiency = .inf false := by
  have h12500 : isDouble (.finite (12000 + 500)) := by
    have h := isDouble_natCast 12500 (by norm_num)
    norm_num at h ⊢
    exact h
  have hcar : (car.operator_plus_eq (.finite 500)).analyzeUsageEfficiency
      = .finite (4581298449066667 / 4398046511104) := by
    rw [operator_plus_eq_of_pos _ _ (by simp [lt])]
    have hadd : add car.mileage (.finite 500) = .finite (12000 + 500) := h12500
    rw [analyzeUsageEfficiency_finite _ (12000 + 500) 12 hadd rfl (by norm_num)]
    have e : ((12000 : ℚ) + 500) / 12 = 12500 / 12 := by norm_num
    rw [e]
    exact toDouble_12500_div_12
  refine ⟨hcar, ?_, ?_, ?_, ?_⟩
  · rw [hcar]
    intro hc
    injection hc with hc
    norm_num at hc
  · have h := isDouble_of_mantissa 1 1023 (by norm_num) (by norm_num)
      (by norm_num [abs_of_pos])
    norm_num at h ⊢
    exact h
  · have h := isDouble_of_mantissa 1 (-1022) (by norm_num) (by norm_num)
      (by
        rw [Int.cast_one, one_mul, abs_of_pos (two_zpow_pos _)]
        exact lt_of_le_of_lt (zpow_le_one_of_nonpos₀ (by norm_num) (by norm_num))
          (by norm_num))
    rw [Int.cast_one, one_mul] at h
    exact h
  · rw [analyzeUsageEfficiency_finite _ (2 ^ 1023) (2 ^ (-1022 : ℤ)) rfl rfl
      (ne_of_gt (two_zpow_pos _))]
    exact toDouble_overflow

/-- Claim C14, amended. For every vehicle, of any variant, `analyzeUsageEfficiency()` returns
the quotient of the current mileage by the fuel efficiency as doubles; when both are finite and
the fuel efficiency is not zero this is `mileage / fuel_efficiency` rounded to the nearest
double, an infinity when that leaves the range, never NaN, and the exact quotient whenever it is
a double. After `operator+=` with a delta greater than zero it is the quotient of the double
sum of mileage and delta by the fuel efficiency. The method is `const` and returns only the
value. -/
theorem C14_usage_efficiency (v : Vehicle) (delta : DoubleValue) (m fe d : ℚ) :
    v.analyzeUsageEfficiency = div v.mileage v.fuel_efficiency ∧
    (v.mileage = .finite m → v.fuel_efficiency = .finite fe → fe ≠ 0 →
      v.analyzeUsageEfficiency = toDouble (m / fe) ∧
      v.analyzeUsageEfficiency ≠ .nan ∧
      (isDouble (.finite (m / fe)) → v.analyzeUsageEfficiency = .finite (m / fe))) ∧
    (lt (.finite 0) delta = true →
      (v.operator_plus_eq delta).analyzeUsageEfficiency
        = div (add v.mileage delta) v.fuel_efficiency) ∧
    (v.mileage = .finite m → v.fuel_efficiency = .finite fe → fe ≠ 0 →
      delta = .finite d → 0 < d → isDouble (.finite (m + d)) →
      (v.operator_plus_eq delta).analyzeUsageEfficiency = toDouble ((m + d) / fe)) := by
  refine ⟨rfl, ?_, ?_, ?_⟩
  · intro hm hfe h0
    rw [analyzeUsageEfficiency_finite v m fe hm hfe h0]
    exact ⟨rfl, toDouble_ne_nan _, fun h => h⟩
  · intro h
    rw [operator_plus_eq_of_pos v delta h]
    rfl
  · intro hm hfe h0 hd hpos hsum
    have hlt : lt (.finite 0) delta = true := by rw [hd]; simp [lt, hpos]
    rw [operator_plus_eq_of_pos v delta hlt]
    have hadd : add v.mileage delta = .finite (m + d) := by
      rw [hm, hd]
      exact hsum
    exact analyzeUsageEfficiency_finite _ (m + d) fe hadd hfe h0

/-- Witness of C14 (amended): the `car` of `runTests`, mileage 12000 and efficiency 12,
reports exactly 1000; after `*car += 500` it reports the double nearest to `12500/12`, which
lies strictly between 1041 and 1042. -/
theorem C14_usage_efficiency_witness :
    car.mileage = .finite 12000 ∧ car.fuel_efficiency = .finite 12 ∧
    car.analyzeUsageEfficiency = .finite 1000 ∧
    (car.operator_plus_eq (.finite 500)).analyzeUsageEfficiency
      = .finite (4581298449066667 / 4398046511104) ∧
    (1041 : ℚ) < 4581298449066667 / 4398046511104 ∧
    (4581298449066667 : ℚ) / 4398046511104 < 1042 :=
  have h1000 : isDouble (.finite (12000 / 12)) := by
    have h := isDouble_natCast 1000 (by norm_num)
    norm_num at h ⊢
    exact h
  have h12500 : isDouble (.finite (12000 + 500)) := by
    have h := isDouble_natCast 12500 (by norm_num)
    norm_num at h ⊢
    exact h
  ⟨rfl, rfl,
   (((C14_usage_efficiency car (.finite 500) 12000 12 500).2.1 rfl rfl
      (by norm_num)).2.2 h1000).trans (by norm_num),
   ((C14_usage_efficiency car (.finite 500) 12000 12 500).2.2.2 rfl rfl (by norm_num) rfl
      (by norm_num) h12500).trans
      ((congrArg toDouble (by norm_num : ((12000 : ℚ) + 500) / 12 = 12500 / 12)).trans
        toDouble_12500_div_12),
   by norm_num, by norm_num⟩

end Vehicle

end Binary64

/-! ## `MaintenanceManager`: the due flag and the threshold, in `int` -/

namespace MaintenanceManager

theorem wrapInt_of_inRange (x : Int) (h1 : INT_MIN ≤ x) (h2 : x ≤ INT_MAX) : wrapInt x = x := by
  unfold wrapInt
  unfold INT_MIN at h1
  unfold INT_MAX at h2
  omega

theorem step32_eq_step (s : MaintenanceManager) (call : MaintenanceCall)
    (h : noOverflow s [call] = true) : s.step32 call = s.step call := by
  cases call with
  | addVehicle id t => rfl
  | performMaintenance id t => rfl
  | updateMileage id m =>
    simp only [step32, step, updateMileage32, updateMileage]
    cases hf : s.maintenanceSchedule.find id with
    | none => rfl
    | some old =>
      simp only [noOverflow, hf, Bool.and_true, decide_eq_true_eq] at h
      simp only [wrapInt_of_inRange _ h.1 h.2]

theorem run32_eq_run (calls : List MaintenanceCall) : ∀ s : MaintenanceManager,
    noOverflow s calls = true → s.run32 calls = s.run calls := by
  induction calls with
  | nil => intro s _; rfl
  | cons call rest ih =>
    intro s h
    have h1 : noOverflow s [call] = true := by
      simp only [noOverflow, Bool.and_eq_true] at h ⊢
      exact ⟨h.1, trivial⟩
    have h2 : noOverflow (s.step32 call) rest = true := by
      simp only [noOverflow, Bool.and_eq_true] at h
      exact h.2
    simp only [run32, run, List.foldl_cons]
    have e := step32_eq_step s call h1
    rw [← e]
    exact ih (s.step32 call) h2

/-- Claim C18 as stated fails: `addVehicle("V1", 1)`, `updateMileage("V1", INT_MAX)`,
`updateMileage("V1", INT_MAX)` are calls with a positive threshold and non-negative mileages,
all values of `int`; the second subtraction, `-2147483646 - 2147483647`, overflows and wraps to
3, so the stored threshold is 3, which is greater than 0, while `needsMaintenance("V1")` is
true. -/
theorem C18_overflow_breaks_equivalence :
    [MaintenanceCall.addVehicle "V1" 1, .updateMileage "V1" INT_MAX,
      .updateMileage "V1" INT_MAX].all MaintenanceCall.sane = true ∧
    [MaintenanceCall.addVehicle "V1" 1, .updateMileage "V1" INT_MAX,
      .updateMileage "V1" INT_MAX].all MaintenanceCall.isInt = true ∧
    (empty.run32 [.addVehicle "V1" 1, .updateMileage "V1" INT_MAX]).maintenanceSchedule.find
      "V1" = some (-2147483646) ∧
    (empty.run32 [.addVehicle "V1" 1, .updateMileage "V1" INT_MAX,
      .updateMileage "V1" INT_MAX]).maintenanceSchedule.find "V1" = some 3 ∧
    (empty.run32 [.addVehicle "V1" 1, .updateMileage "V1" INT_MAX,
      .updateMileage "V1" INT_MAX]).needsMaintenance "V1" = true := by
  decide

/-- Claim C18, amended. In every state reached from the empty scheduler by `addVehicle` and
`performMaintenance` calls with a positive threshold and `updateMileage` calls with a
non-negative mileage, none of whose subtractions overflows `int`, `needsMaintenance(id)` is
true iff the stored threshold of `id` is `≤ 0`, for every id that has one. The range of the
arguments matters: after `addVehicle("V1", 0)` the threshold is 0 and the id is not due, and
after `addVehicle("V1", 500)`, `updateMileage("V1", 600)`, `updateMileage("V1", -200)` the
threshold is 100 and the id is due. -/
theorem C18_due_matches_threshold (calls : List MaintenanceCall) (id : String) (t : Int) :
    (calls.all MaintenanceCall.sane = true → noOverflow empty calls = true →
      (empty.run32 calls).maintenanceSchedule.find id = some t →
      ((empty.run32 calls).needsMaintenance id = true ↔ t ≤ 0)) ∧
    ((empty.run32 [.addVehicle "V1" 0]).maintenanceSchedule.find "V1" = some 0 ∧
      (empty.run32 [.addVehicle "V1" 0]).needsMaintenance "V1" = false) ∧
    ((empty.run32 [.addVehicle "V1" 500, .updateMileage "V1" 600,
        .updateMileage "V1" (-200)]).maintenanceSchedule.find "V1" = some 100 ∧
      (empty.run32 [.addVehicle "V1" 500, .updateMileage "V1" 600,
        .updateMileage "V1" (-200)]).needsMaintenance "V1" = true) := by
  refine ⟨?_, by decide, by decide⟩
  intro hsane hno hreg
  rw [run32_eq_run calls empty hno] at hreg ⊢
  refine due_iff_run calls empty hsane ?_ id t hreg
  intro id' t' h'
  simp [empty, StdMap.find] at h'

/-- Witness of C18 (amended): after `addVehicle("V1", 500)`, `updateMileage("V1", 600)`,
where nothing overflows, the threshold is -100 and the id is due; after a further
`performMaintenance("V1", 800)` the threshold is 800 and the id is not due. -/
theorem C18_due_matches_threshold_witness :
    [MaintenanceCall.addVehicle "V1" 500, .updateMileage "V1" 600].all MaintenanceCall.sane
      = true ∧
    noOverflow empty [.addVehicle "V1" 500, .updateMileage "V1" 600] = true ∧
    (empty.run32 [.addVehicle "V1" 500, .updateMileage "V1" 600]).maintenanceSchedule.find
      "V1" = some (-100) ∧
    (empty.run32 [.addVehicle "V1" 500, .updateMileage "V1" 600]).needsMaintenance "V1"
      = true ∧
    (empty.run32 [.addVehicle "V1" 500, .updateMileage "V1" 600,
      .performMaintenance "V1" 800]).needsMaintenance "V1" ≠ true :=
  ⟨by decide, by decide, by decide,
   ((C18_due_matches_threshold [.addVehicle "V1" 500, .updateMileage "V1" 600] "V1" (-100)).1
      (by decide) (by decide) (by decide)).mpr (by decide),
   fun h => absurd
    (((C18_due_matches_threshold
      [.addVehicle "V1" 500, .updateMileage "V1" 600, .performMaintenance "V1" 800]
      "V1" 800).1 (by decide) (by decide) (by decide)).mp h) (by decide)⟩

end MaintenanceManager

end Fleet
